import Mathlib

/-!
Verification development for the CDC import/sync reconciliation logic of the
lift-tracker backend (`src/app/api/v1/equipment.py`, `src/app/api/v1/exercises.py`,
`src/app/crud/crud_exercise_equipment.py`).

The persistence layer is modelled as in-memory lists of records with an
autoincrement id counter; the HTTP source is modelled as a list of pages, each
either a list of items or a fetch failure.  Python strings are modelled by Lean
`String` with character-level reimplementations of `str.strip`, `str.lower` and
`str.split` (Python strips a couple more exotic unicode whitespace characters;
none of the data handled here contains them).  CSV rows are modelled as records
of optional column values (`none` = the column is absent from the file), which
is the `csv.DictReader` view of a row; `csv.writer`/`csv.DictReader`
round-trips field strings exactly, so the export endpoint is modelled as
producing rows directly.  Error message strings are modelled schematically:
the row number / entity name layout of each message is kept, the prose of
library-generated messages (pydantic validation, IntegrityError) is fixed text.
-/

namespace LiftTracker

/-! ## Python string primitives -/

/-- Python `str.strip()` (whitespace trimming), character-level model. -/
def trimCharList (cs : List Char) : List Char :=
  ((cs.dropWhile Char.isWhitespace).reverse.dropWhile Char.isWhitespace).reverse

/-- Python `str.strip()`. -/
def pstrip (s : String) : String :=
  String.mk (trimCharList s.data)

/-- Python `str.lower()` (ASCII data). -/
def plower (s : String) : String :=
  String.mk (s.data.map Char.toLower)

def commaChar : Char := ','

def splitCommaAux : List Char → List Char → List String
  | [], acc => [String.mk acc.reverse]
  | c :: rest, acc =>
      if c = commaChar then String.mk acc.reverse :: splitCommaAux rest []
      else splitCommaAux rest (c :: acc)

/-- Python `str.split(",")`. -/
def splitComma (s : String) : List String :=
  splitCommaAux s.data []

/-! ## Python dict (string-keyed), insertion overwrites -/

def dinsert {α : Type} (k : String) (v : α) (m : List (String × α)) : List (String × α) :=
  (k, v) :: m.filter (fun p => p.1 ≠ k)

def dget {α : Type} (m : List (String × α)) (k : String) : Option α :=
  (m.find? (fun p => p.1 = k)).map (fun p => p.2)

/-- Nat-keyed dict lookup (wger id → name maps). -/
def nget {α : Type} (m : List (Nat × α)) (k : Nat) : Option α :=
  (m.find? (fun p => p.1 = k)).map (fun p => p.2)

/-! ## Data model: equipment -/

/-- A persisted equipment row (`models/equipment.py`): unique exact `name`,
optional description, enabled flag. -/
structure Equipment where
  id : Nat
  name : String
  description : Option String
  enabled : Bool
deriving Repr, DecidableEq

/-- The fields of an equipment record that the import's in-memory identity map
carries (`EquipmentRead` for entries from the store, the literal dict
`{name, description, enabled}` for entries registered after a create). -/
structure EquipmentView where
  name : String
  description : Option String
  enabled : Bool
deriving Repr, DecidableEq

def Equipment.view (e : Equipment) : EquipmentView :=
  { name := e.name, description := e.description, enabled := e.enabled }

/-- A CSV row as seen through `csv.DictReader`: each referenced column is either
present with a string value or absent (`none`). -/
structure CsvRow where
  name : Option String := none
  description : Option String := none
  enabled : Option String := none
  primary_muscle_groups : Option String := none
  secondary_muscle_groups : Option String := none
deriving Repr, DecidableEq

/-- `existing_equipment_map`: case-insensitive name → record, built by iterating
the store in order (later entries overwrite earlier ones). -/
def buildEquipmentMap (store : List Equipment) : List (String × EquipmentView) :=
  store.foldl (fun m e => dinsert (plower e.name) e.view m) []

/-- `row.get("description", "").strip() or None`. -/
def parseDescription (s : Option String) : Option String :=
  let d := pstrip (s.getD (String.mk []))
  if d = String.mk [] then none else some d

def litTrue : String := "true"
def litOne : String := "1"
def litYes : String := "yes"
def litEnabled : String := "enabled"
def litY : String := "y"
def litFalse : String := "false"

/-- Equipment import: `row.get("enabled", "true").strip().lower() in ("true", "1", "yes", "enabled")`. -/
def parseEnabledEquip (s : Option String) : Bool :=
  let es := plower (pstrip (s.getD litTrue))
  es = litTrue || es = litOne || es = litYes || es = litEnabled

/-- Exercise import: truthy forms are `("true", "1", "yes", "y")`. -/
def parseEnabledExercise (s : Option String) : Bool :=
  let es := plower (pstrip (s.getD litTrue))
  es = litTrue || es = litOne || es = litYes || es = litY

/-- Autoincrement: the next id handed out by the persistence layer. -/
def freshEquipmentId (store : List Equipment) : Nat :=
  store.foldl (fun m e => max m e.id) 0 + 1

/-! ## Equipment CSV import (`import_equipment`, equipment.py lines 181-291) -/

/-- State threaded through one run of the equipment import. -/
structure EqImportState where
  store : List Equipment
  nextId : Nat
  emap : List (String × EquipmentView)
  created : Nat
  updated : Nat
  skipped : Nat
  errors : List String
deriving Repr, DecidableEq

def rowLit : String := "Row "
def colonLit : String := ": "
def eqCreateInvalidLit : String := "equipment validation error"

/-- Schematic model of the pydantic message raised by
`EquipmentCreate(name=..., description=..., enabled=...)` when a field bound
(`name` ≤ 50 chars, `description` ≤ 200 chars) is violated. -/
def eqCreateErrMsg (rowNum : Nat) : String :=
  rowLit ++ toString rowNum ++ colonLit ++ eqCreateInvalidLit

/-- `EquipmentCreate` pydantic validation (schemas/equipment.py): `name` has
`min_length=1, max_length=50`, `description` has `max_length=200`.  The import
only reaches the constructor with a non-empty name, so only the upper bounds
can fail. -/
def equipmentCreateInvalid (name : String) (description : Option String) : Bool :=
  decide (50 < name.length) ||
    (match description with
     | some d => decide (200 < d.length)
     | none => false)

/-- `crud_equipment.update(db, object=update_data, name=existing_name)`:
a SQL UPDATE of the changed fields on every row whose exact name matches. -/
def equipmentUpdateApply (vname : String) (description : Option String) (enabled : Bool)
    (dChanged eChanged : Bool) (store : List Equipment) : List Equipment :=
  store.map (fun e =>
    if e.name = vname then
      { e with description := if dChanged then description else e.description,
               enabled := if eChanged then enabled else e.enabled }
    else e)

/-- One row of the equipment CSV import (loop body at equipment.py lines
229-283).  `ins` models rows inserted into the store by a concurrent writer
after this run built / last consulted its identity map and before this row's
`create` is executed: a unique-constraint violation (`IntegrityError`) occurs
exactly when the created name already exists in the store at that moment, and
the handler rolls back the row and counts it as skipped.  Single-writer runs
pass `ins = []`. -/
def import_equipment_row (ins : List Equipment) (st : EqImportState) (rowNum : Nat)
    (r : CsvRow) : EqImportState :=
  let name := pstrip (r.name.getD (String.mk []))
  if name = String.mk [] then
    { st with skipped := st.skipped + 1 }
  else
    let description := parseDescription r.description
    let enabled := parseEnabledEquip r.enabled
    match dget st.emap (plower name) with
    | some v =>
        let dChanged := decide (description ≠ v.description)
        let eChanged := decide (enabled ≠ v.enabled)
        if dChanged || eChanged then
          { st with
              store := equipmentUpdateApply v.name description enabled dChanged eChanged st.store,
              updated := st.updated + 1 }
        else
          { st with skipped := st.skipped + 1 }
    | none =>
        if equipmentCreateInvalid name description then
          { st with errors := st.errors ++ [eqCreateErrMsg rowNum] }
        else
          let store1 := st.store ++ ins
          if store1.any (fun e => decide (e.name = name)) then
            { st with store := store1, skipped := st.skipped + 1 }
          else
            { st with
                store := store1 ++ [{ id := st.nextId, name := name,
                                      description := description, enabled := enabled }],
                nextId := st.nextId + 1,
                emap := dinsert (plower name)
                  { name := name, description := description, enabled := enabled } st.emap,
                created := st.created + 1 }

/-- The import's row loop (`enumerate(csv_reader, start=2)`): each row comes
with the concurrent-writer insertions in effect for it. -/
def import_equipment_rows (st : EqImportState) (rowNum : Nat) :
    List (CsvRow × List Equipment) → EqImportState
  | [] => st
  | (r, ins) :: rest =>
      import_equipment_rows (import_equipment_row ins st rowNum r) (rowNum + 1) rest

def initEqImportState (store : List Equipment) : EqImportState :=
  { store := store, nextId := freshEquipmentId store, emap := buildEquipmentMap store,
    created := 0, updated := 0, skipped := 0, errors := [] }

/-- `import_equipment` with an explicit concurrent-writer schedule. -/
def import_equipment_concurrent (store : List Equipment)
    (rows : List (CsvRow × List Equipment)) : EqImportState :=
  import_equipment_rows (initEqImportState store) 2 rows

/-- `import_equipment` (equipment.py lines 181-291), single-writer. -/
def import_equipment (store : List Equipment) (rows : List CsvRow) : EqImportState :=
  import_equipment_concurrent store (rows.map (fun r => (r, [])))

/-! ## Data model: exercises and muscle groups -/

/-- A persisted exercise as the import/sync endpoints see it (`ExerciseRead`):
unique exact `name`, resolved muscle-group id lists, enabled flag. -/
structure Exercise where
  id : Nat
  name : String
  primary_muscle_group_ids : List Nat
  secondary_muscle_group_ids : List Nat
  enabled : Bool
deriving Repr, DecidableEq

/-- A persisted muscle group (`models/muscle_group.py`): unique `name`. -/
structure MuscleGroup where
  id : Nat
  name : String
deriving Repr, DecidableEq

/-- `existing_exercise_map`: case-insensitive name → record. -/
def buildExerciseMap (store : List Exercise) : List (String × Exercise) :=
  store.foldl (fun m e => dinsert (plower e.name) e m) []

/-- `muscle_group_name_map` as the CSV import builds it (exercises.py lines
487-495): keyed by `mg_name.lower()`, no strip. -/
def buildMgMapImport (mgs : List MuscleGroup) : List (String × Nat) :=
  mgs.foldl (fun m g => dinsert (plower g.name) g.id m) []

/-- `muscle_group_name_map` as the wger sync builds it (exercises.py lines
670-678): keyed by `mg_name.strip().lower()`. -/
def buildMgMapSync (mgs : List MuscleGroup) : List (String × Nat) :=
  mgs.foldl (fun m g => dinsert (plower (pstrip g.name)) g.id m) []

def freshExerciseId (store : List Exercise) : Nat :=
  store.foldl (fun m e => max m e.id) 0 + 1

def freshMuscleGroupId (store : List MuscleGroup) : Nat :=
  store.foldl (fun m g => max m g.id) 0 + 1

/-! ## Exercise CSV import (`import_exercises`, exercises.py lines 441-613) -/

/-- `[s.strip() for s in text.split(",") if s.strip()]`. -/
def splitNames (s : String) : List String :=
  ((splitComma s).map pstrip).filter (fun x => x ≠ String.mk [])

def primaryLit : String := "Primary"
def secondaryLit : String := "Secondary"
def mgSpaceLit : String := " muscle group "
def notFoundLit : String := " not found"

/-- `Row {n}: {kind} muscle group {name} not found` (quotes around the name
dropped in the model). -/
def mgNotFoundMsg (rowNum : Nat) (kind nm : String) : String :=
  rowLit ++ toString rowNum ++ colonLit ++ kind ++ mgSpaceLit ++ nm ++ notFoundLit

/-- The muscle-group resolution loops of the CSV import (exercises.py lines
522-542): look each name up case-insensitively; an unknown name appends an
error and is dropped; known ids are deduplicated preserving order. -/
def resolveImportIds (mgMap : List (String × Nat)) (rowNum : Nat) (kind : String)
    (names : List String) : List String × List Nat :=
  names.foldl
    (fun acc nm =>
      match dget mgMap (plower nm) with
      | none => (acc.1 ++ [mgNotFoundMsg rowNum kind nm], acc.2)
      | some i => (acc.1, if acc.2.contains i then acc.2 else acc.2 ++ [i]))
    ([], [])

def exNameRequiredLit : String := "Exercise name is required"
def exPrimaryRequiredLit : String := "At least one primary muscle group is required"

def exNameRequiredMsg (rowNum : Nat) : String :=
  rowLit ++ toString rowNum ++ colonLit ++ exNameRequiredLit

def exPrimaryRequiredMsg (rowNum : Nat) : String :=
  rowLit ++ toString rowNum ++ colonLit ++ exPrimaryRequiredLit

/-- Result of parsing one CSV exercise row up to the identity lookup:
either the row was rejected (`continue` with the given errors), or a candidate
with the errors accumulated so far (unknown muscle-group names). -/
inductive ExRowParse where
  | rejected (errs : List String)
  | candidate (errs : List String) (name : String) (pids sids : List Nat) (enabled : Bool)
deriving Repr, DecidableEq

/-- Row parsing of the CSV exercise import (exercises.py lines 505-546). -/
def parse_exercise_row (mgMap : List (String × Nat)) (rowNum : Nat) (r : CsvRow) :
    ExRowParse :=
  let name := pstrip (r.name.getD (String.mk []))
  if name = String.mk [] then .rejected [exNameRequiredMsg rowNum]
  else
    let pstr := pstrip (r.primary_muscle_groups.getD (String.mk []))
    if pstr = String.mk [] then .rejected [exPrimaryRequiredMsg rowNum]
    else
      let pnames := splitNames pstr
      if pnames = [] then .rejected [exPrimaryRequiredMsg rowNum]
      else
        let pres := resolveImportIds mgMap rowNum primaryLit pnames
        let sstr := pstrip (r.secondary_muscle_groups.getD (String.mk []))
        let sres :=
          if sstr = String.mk [] then ([], [])
          else resolveImportIds mgMap rowNum secondaryLit (splitNames sstr)
        let enabled := parseEnabledExercise r.enabled
        .candidate (pres.1 ++ sres.1) name pres.2 sres.2 enabled

/-- `needs_update` of the CSV import (exercises.py lines 567-572): name by
exact equality, muscle-group id lists by set equality, enabled by equality. -/
def exercise_needs_update (v : Exercise) (name : String) (pids sids : List Nat)
    (enabled : Bool) : Bool :=
  decide (v.name ≠ name) ||
    decide (v.primary_muscle_group_ids.toFinset ≠ pids.toFinset) ||
    decide (v.secondary_muscle_group_ids.toFinset ≠ sids.toFinset) ||
    decide (v.enabled ≠ enabled)

/-- `ExerciseUpdate` pydantic validation for the fields the import passes:
`name` (when changed) must be ≤ 100 chars, `primary_muscle_group_ids` (when
changed) must be non-empty (`min_length=1`). -/
def exerciseUpdateInvalid (v : Exercise) (name : String) (pids : List Nat) : Bool :=
  (decide (v.name ≠ name) && decide (100 < name.length)) ||
    (decide (v.primary_muscle_group_ids.toFinset ≠ pids.toFinset) && pids.isEmpty)

/-- `ExerciseCreate` pydantic validation: `name` ≤ 100 chars,
`primary_muscle_group_ids` non-empty. -/
def exerciseCreateInvalid (name : String) (pids : List Nat) : Bool :=
  decide (100 < name.length) || pids.isEmpty

/-- `update_exercise_with_muscle_groups` on the changed-field subset the import
passes (exercises.py lines 574-586): each field is written only when the diff
against the matched record `v` saw a change. -/
def exerciseUpdateApply (v : Exercise) (name : String) (pids sids : List Nat)
    (enabled : Bool) (store : List Exercise) : List Exercise :=
  store.map (fun e =>
    if e.id = v.id then
      { e with
          name := if v.name ≠ name then name else e.name,
          primary_muscle_group_ids :=
            if v.primary_muscle_group_ids.toFinset ≠ pids.toFinset then pids
            else e.primary_muscle_group_ids,
          secondary_muscle_group_ids :=
            if v.secondary_muscle_group_ids.toFinset ≠ sids.toFinset then sids
            else e.secondary_muscle_group_ids,
          enabled := if v.enabled ≠ enabled then enabled else e.enabled }
    else e)

def exUpdateInvalidLit : String := "exercise update validation error"
def exCreateInvalidLit : String := "exercise create validation error"
def exDuplicateLit : String := "duplicate key value violates unique constraint"

def exUpdateErrMsg (rowNum : Nat) : String :=
  rowLit ++ toString rowNum ++ colonLit ++ exUpdateInvalidLit

def exCreateErrMsg (rowNum : Nat) : String :=
  rowLit ++ toString rowNum ++ colonLit ++ exCreateInvalidLit

def exDuplicateErrMsg (rowNum : Nat) : String :=
  rowLit ++ toString rowNum ++ colonLit ++ exDuplicateLit

/-- State threaded through one run of the exercise CSV import.  Unlike the
equipment import, this endpoint never registers created records in `emap`. -/
structure ExImportState where
  store : List Exercise
  nextId : Nat
  emap : List (String × Exercise)
  created : Nat
  updated : Nat
  skipped : Nat
  errors : List String
deriving Repr, DecidableEq

/-- One row of the exercise CSV import (loop body at exercises.py lines
503-603).  A create that hits the store's unique name constraint raises
`IntegrityError`, which this endpoint does not handle specially: the generic
row handler records the row as an error. -/
def import_exercises_row (mgMap : List (String × Nat)) (st : ExImportState)
    (rowNum : Nat) (r : CsvRow) : ExImportState :=
  match parse_exercise_row mgMap rowNum r with
  | .rejected errs => { st with errors := st.errors ++ errs }
  | .candidate errs name pids sids enabled =>
      let st := { st with errors := st.errors ++ errs }
      match dget st.emap (plower name) with
      | some v =>
          if exercise_needs_update v name pids sids enabled then
            if exerciseUpdateInvalid v name pids then
              { st with errors := st.errors ++ [exUpdateErrMsg rowNum] }
            else
              { st with
                  store := exerciseUpdateApply v name pids sids enabled st.store,
                  updated := st.updated + 1 }
          else
            { st with skipped := st.skipped + 1 }
      | none =>
          if exerciseCreateInvalid name pids then
            { st with errors := st.errors ++ [exCreateErrMsg rowNum] }
          else if st.store.any (fun e => decide (e.name = name)) then
            { st with errors := st.errors ++ [exDuplicateErrMsg rowNum] }
          else
            { st with
                store := st.store ++ [{ id := st.nextId, name := name,
                                        primary_muscle_group_ids := pids,
                                        secondary_muscle_group_ids := sids,
                                        enabled := enabled }],
                nextId := st.nextId + 1,
                created := st.created + 1 }

def import_exercises_rows (mgMap : List (String × Nat)) (st : ExImportState)
    (rowNum : Nat) : List CsvRow → ExImportState
  | [] => st
  | r :: rest =>
      import_exercises_rows mgMap (import_exercises_row mgMap st rowNum r) (rowNum + 1) rest

def initExImportState (store : List Exercise) : ExImportState :=
  { store := store, nextId := freshExerciseId store, emap := buildExerciseMap store,
    created := 0, updated := 0, skipped := 0, errors := [] }

/-- `import_exercises` (exercises.py lines 441-613). -/
def import_exercises (store : List Exercise) (mgs : List MuscleGroup)
    (rows : List CsvRow) : ExImportState :=
  import_exercises_rows (buildMgMapImport mgs) (initExImportState store) 2 rows

/-! ## Wger exercise sync (`sync_exercises_from_wger`, exercises.py lines 616-962)

The muscles map (wger muscle id → name) and the translations map (wger
exercise id → English name) are fetched before the candidate loop; they are
inputs of the model.  The candidate pages are a list of fetch results. -/

/-- One item of a wger `/exercise/` page, with the fields the sync reads. -/
structure WgerExercise where
  id : Option Nat := none
  muscles : List Nat := []
  muscles_secondary : List Nat := []
deriving Repr, DecidableEq

structure ExSyncState where
  exStore : List Exercise
  mgStore : List MuscleGroup
  nextExId : Nat
  nextMgId : Nat
  exMap : List (String × Exercise)
  mgMap : List (String × Nat)
  created : Nat
  updated : Nat
  skipped : Nat
  muscle_groups_created : Nat
  errors : List String
deriving Repr, DecidableEq

def exerciseIdLit : String := "Exercise ID "
def noNameLit : String := ": No name found in translations"
def noneLit : String := "None"
def exerciseSpaceLit : String := "Exercise "
def noPrimaryLit : String := ": No primary muscles found"
def primaryMuscleIdLit : String := ": Primary muscle ID "
def notInMusclesMapLit : String := " not found in muscles map"
def failedCreateMgLit : String := ": Failed to create muscle group "
def failedUpdateLit : String := ": Failed to update"
def failedCreateLit : String := ": Failed to create"
def duplicateKeyErrorLit : String := ": Duplicate key error"
def fetchExercisesFailLit : String := "Failed to fetch exercises from Wger API: "

def wgerIdStr (i : Option Nat) : String :=
  match i with
  | some n => toString n
  | none => noneLit

/-- `MuscleGroupCreate(name=...)` pydantic validation: 1 ≤ length ≤ 50. -/
def muscleGroupCreateValid (nm : String) : Bool :=
  decide (1 ≤ nm.length) && decide (nm.length ≤ 50)

/-- The get-or-create step shared by both muscle loops of the sync (exercises.py
lines 802-819 and 828-844): look the muscle-group name up case-insensitively,
create it when absent (registering it in the name map and bumping the created
counter), and append the resulting id to the accumulator unless already there.
A failed creation (pydantic bound on the name) appends an error instead. -/
def syncGetOrCreateMg (exName mname : String) (s : ExSyncState) (out : List Nat) :
    ExSyncState × List Nat :=
  match dget s.mgMap (plower mname) with
  | some gid => (s, if out.contains gid then out else out ++ [gid])
  | none =>
      if muscleGroupCreateValid mname then
        let gid := s.nextMgId
        ({ s with
            mgStore := s.mgStore ++ [{ id := gid, name := mname }],
            nextMgId := gid + 1,
            mgMap := dinsert (plower mname) gid s.mgMap,
            muscle_groups_created := s.muscle_groups_created + 1 },
         if out.contains gid then out else out ++ [gid])
      else
        ({ s with errors := s.errors ++
            [exerciseSpaceLit ++ exName ++ failedCreateMgLit ++ mname] }, out)

/-- Primary-muscle resolution of the sync (exercises.py lines 795-819): map
each wger muscle id to its name, get-or-create the muscle group of that name,
dedup ids; unknown muscle ids and failed creations append errors. -/
def resolveSyncPrimaryAux (musclesMap : List (Nat × String)) (exName : String)
    (s : ExSyncState) (out : List Nat) : List Nat → ExSyncState × List Nat
  | [] => (s, out)
  | mid :: rest =>
      match nget musclesMap mid with
      | none =>
          resolveSyncPrimaryAux musclesMap exName
            { s with errors := s.errors ++
                [exerciseSpaceLit ++ exName ++ primaryMuscleIdLit ++ toString mid ++
                  notInMusclesMapLit] } out rest
      | some mname =>
          let r := syncGetOrCreateMg exName mname s out
          resolveSyncPrimaryAux musclesMap exName r.1 r.2 rest

def resolveSyncPrimary (musclesMap : List (Nat × String)) (exName : String)
    (s : ExSyncState) (ids : List Nat) : ExSyncState × List Nat :=
  resolveSyncPrimaryAux musclesMap exName s [] ids

/-- Secondary-muscle resolution (exercises.py lines 822-844): same as primary
except an unknown wger muscle id is skipped silently. -/
def resolveSyncSecondaryAux (musclesMap : List (Nat × String)) (exName : String)
    (s : ExSyncState) (out : List Nat) : List Nat → ExSyncState × List Nat
  | [] => (s, out)
  | mid :: rest =>
      match nget musclesMap mid with
      | none => resolveSyncSecondaryAux musclesMap exName s out rest
      | some mname =>
          let r := syncGetOrCreateMg exName mname s out
          resolveSyncSecondaryAux musclesMap exName r.1 r.2 rest

def resolveSyncSecondary (musclesMap : List (Nat × String)) (exName : String)
    (s : ExSyncState) (ids : List Nat) : ExSyncState × List Nat :=
  resolveSyncSecondaryAux musclesMap exName s [] ids

/-- `needs_update` of the sync (exercises.py lines 874-878): name by exact
equality, muscle-group id lists by set equality; `enabled` is not compared. -/
def sync_needs_update (v : Exercise) (name : String) (pids sids : List Nat) : Bool :=
  decide (v.name ≠ name) ||
    decide (v.primary_muscle_group_ids.toFinset ≠ pids.toFinset) ||
    decide (v.secondary_muscle_group_ids.toFinset ≠ sids.toFinset)

/-- Field application of the sync's update (exercises.py lines 883-892);
`enabled` is never written. -/
def syncUpdateApply (v : Exercise) (name : String) (pids sids : List Nat)
    (store : List Exercise) : List Exercise :=
  store.map (fun e =>
    if e.id = v.id then
      { e with
          name := if v.name ≠ name then name else e.name,
          primary_muscle_group_ids :=
            if v.primary_muscle_group_ids.toFinset ≠ pids.toFinset then pids
            else e.primary_muscle_group_ids,
          secondary_muscle_group_ids :=
            if v.secondary_muscle_group_ids.toFinset ≠ sids.toFinset then sids
            else e.secondary_muscle_group_ids }
    else e)

/-- The match/diff/apply phase for one sync candidate (exercises.py lines
846-935), reached with the candidate's resolved name and muscle-group ids.
`ins` models exercises inserted by a concurrent writer after this candidate's
identity lookups (map and direct store query) and before its `create` is
executed; a single-writer run passes `[]`.  A unique-constraint violation on
create (`IntegrityError`) occurs exactly when the exact name is already in the
store at that moment; the handler rolls the row back, re-queries by exact name
and, if found, registers the record and counts the row as skipped
(exercises.py lines 918-932). -/
def sync_reconcile_exercise (ins : List Exercise) (s : ExSyncState) (name : String)
    (pids sids : List Nat) : ExSyncState :=
  let ex0 := dget s.exMap (plower name)
  let found :=
    match ex0 with
    | some v => (s, some v)
    | none =>
        match s.exStore.find? (fun (e : Exercise) => decide (e.name = name)) with
        | some e => ({ s with exMap := dinsert (plower name) e s.exMap }, some e)
        | none => (s, none)
  let s := found.1
  match found.2 with
  | some v =>
      if sync_needs_update v name pids sids then
        if (decide (v.name ≠ name) && decide (100 < name.length)) ||
            (decide (v.primary_muscle_group_ids.toFinset ≠ pids.toFinset) &&
              pids.isEmpty) then
          { s with errors := s.errors ++ [exerciseSpaceLit ++ name ++ failedUpdateLit] }
        else
          { s with
              exStore := syncUpdateApply v name pids sids s.exStore,
              updated := s.updated + 1 }
      else
        { s with skipped := s.skipped + 1 }
  | none =>
      if exerciseCreateInvalid name pids then
        { s with errors := s.errors ++ [exerciseSpaceLit ++ name ++ failedCreateLit] }
      else
        let store1 := s.exStore ++ ins
        if store1.any (fun (e : Exercise) => decide (e.name = name)) then
          match store1.find? (fun (e : Exercise) => decide (e.name = name)) with
          | some e =>
              { s with exStore := store1,
                       exMap := dinsert (plower name) e s.exMap,
                       skipped := s.skipped + 1 }
          | none =>
              { s with exStore := store1,
                       errors := s.errors ++
                         [exerciseSpaceLit ++ name ++ duplicateKeyErrorLit] }
        else
          let newEx : Exercise :=
            { id := s.nextExId, name := name,
              primary_muscle_group_ids := pids,
              secondary_muscle_group_ids := sids, enabled := true }
          let store2 := store1 ++ [newEx]
          match store2.find? (fun (e : Exercise) => decide (e.name = name)) with
          | some e =>
              { s with exStore := store2, nextExId := s.nextExId + 1,
                       exMap := dinsert (plower name) e s.exMap,
                       created := s.created + 1 }
          | none =>
              { s with exStore := store2, nextExId := s.nextExId + 1,
                       created := s.created + 1 }

/-- One candidate of the wger exercise sync (loop body at exercises.py lines
776-940): translate the wger id to a name, resolve the muscle-group ids, then
reconcile. -/
def sync_process_exercise (musclesMap : List (Nat × String))
    (translationsMap : List (Nat × String)) (ins : List Exercise)
    (s : ExSyncState) (w : WgerExercise) : ExSyncState :=
  let name? :=
    match w.id with
    | some i => nget translationsMap i
    | none => none
  match name? with
  | none =>
      { s with errors := s.errors ++ [exerciseIdLit ++ wgerIdStr w.id ++ noNameLit] }
  | some name =>
      if name = String.mk [] then
        { s with errors := s.errors ++ [exerciseIdLit ++ wgerIdStr w.id ++ noNameLit] }
      else if w.muscles = [] then
        { s with errors := s.errors ++ [exerciseSpaceLit ++ name ++ noPrimaryLit] }
      else
        let rp := resolveSyncPrimary musclesMap name s w.muscles
        let rs := resolveSyncSecondary musclesMap name rp.1 w.muscles_secondary
        sync_reconcile_exercise ins rs.1 name rp.2 rs.2

/-- One fetched page of exercise candidates, processed in order. -/
def processExercisePage (musclesMap translationsMap : List (Nat × String))
    (s : ExSyncState) (items : List WgerExercise) : ExSyncState :=
  items.foldl (fun s w => sync_process_exercise musclesMap translationsMap [] s w) s

/-- The pagination loop over `/exercise/` pages (exercises.py lines 770-946):
a failed fetch appends one error and stops following pages (`break`). -/
def sync_exercise_pages (musclesMap translationsMap : List (Nat × String))
    (s : ExSyncState) : List (Except String (List WgerExercise)) → ExSyncState
  | [] => s
  | (Except.error m) :: _ =>
      { s with errors := s.errors ++ [fetchExercisesFailLit ++ m] }
  | (Except.ok items) :: rest =>
      sync_exercise_pages musclesMap translationsMap
        (processExercisePage musclesMap translationsMap s items) rest

/-- Initial sync state (exercises.py lines 663-714): the muscle-group name map
is built in both modes; under `full_sync` every exercise (fetched with the
unbounded page) is deleted and the identity map starts empty. -/
def initExSyncState (exStore : List Exercise) (mgStore : List MuscleGroup)
    (full_sync : Bool) : ExSyncState :=
  { exStore := if full_sync then [] else exStore,
    mgStore := mgStore,
    nextExId := freshExerciseId exStore,
    nextMgId := freshMuscleGroupId mgStore,
    exMap := if full_sync then [] else buildExerciseMap exStore,
    mgMap := buildMgMapSync mgStore,
    created := 0, updated := 0, skipped := 0, muscle_groups_created := 0,
    errors := [] }

/-- `sync_exercises_from_wger` (exercises.py lines 616-962), final state. -/
def sync_exercises_from_wger (exStore : List Exercise) (mgStore : List MuscleGroup)
    (musclesMap translationsMap : List (Nat × String)) (full_sync : Bool)
    (pages : List (Except String (List WgerExercise))) : ExSyncState :=
  sync_exercise_pages musclesMap translationsMap
    (initExSyncState exStore mgStore full_sync) pages

/-- The response body of the sync (exercises.py lines 955-962): counters plus
`errors[:50]`. -/
structure ExSyncReport where
  created : Nat
  updated : Nat
  skipped : Nat
  muscle_groups_created : Nat
  errors : List String
deriving Repr, DecidableEq

def exSyncReport (s : ExSyncState) : ExSyncReport :=
  { created := s.created, updated := s.updated, skipped := s.skipped,
    muscle_groups_created := s.muscle_groups_created,
    errors := s.errors.take 50 }

/-- `sync_exercises_from_wger`, response as returned to the caller. -/
def sync_exercises_report (exStore : List Exercise) (mgStore : List MuscleGroup)
    (musclesMap translationsMap : List (Nat × String)) (full_sync : Bool)
    (pages : List (Except String (List WgerExercise))) : ExSyncReport :=
  exSyncReport (sync_exercises_from_wger exStore mgStore musclesMap translationsMap
    full_sync pages)

/-! ## Wger equipment sync (`sync_equipment_from_wger`, equipment.py lines 294-421) -/

/-- One item of a wger `/equipment/` page. -/
structure WgerEquipment where
  name : Option String := none
deriving Repr, DecidableEq

structure EqSyncState where
  store : List Equipment
  nextId : Nat
  emap : List (String × EquipmentView)
  created : Nat
  updated : Nat
  skipped : Nat
  errors : List String
deriving Repr, DecidableEq

def errProcessingEquipLit : String := "Error processing equipment "
def syncCompletedLit : String := "Sync completed"
def fetchEquipFailLit : String := "Failed to fetch equipment from Wger API"

/-- One candidate of the wger equipment sync (loop body at equipment.py lines
365-402): existing equipment is never updated, missing equipment is created
with no description and enabled=true; an `IntegrityError` on create is counted
as a skip. -/
def sync_process_equipment (ins : List Equipment) (s : EqSyncState)
    (w : WgerEquipment) : EqSyncState :=
  let name := pstrip (w.name.getD (String.mk []))
  if name = String.mk [] then s
  else
    match dget s.emap (plower name) with
    | some _ => { s with skipped := s.skipped + 1 }
    | none =>
        if equipmentCreateInvalid name none then
          { s with errors := s.errors ++ [errProcessingEquipLit ++ name] }
        else
          let store1 := s.store ++ ins
          if store1.any (fun e => decide (e.name = name)) then
            { s with store := store1, skipped := s.skipped + 1 }
          else
            { s with
                store := store1 ++ [{ id := s.nextId, name := name,
                                      description := none, enabled := true }],
                nextId := s.nextId + 1,
                emap := dinsert (plower name)
                  { name := name, description := none, enabled := true } s.emap,
                created := s.created + 1 }

/-- The response body of the equipment sync: on a fetch failure the endpoint
returns the failure message together with the counters accumulated so far
(equipment.py lines 405-413) instead of raising. -/
structure EqSyncReport where
  message : String
  errorInfo : Option String
  created : Nat
  updated : Nat
  skipped : Nat
  errors : List String
deriving Repr, DecidableEq

/-- One fetched page of equipment candidates, processed in order. -/
def processEquipmentPage (s : EqSyncState) (items : List WgerEquipment) : EqSyncState :=
  items.foldl (fun s w => sync_process_equipment [] s w) s

/-- The pagination loop over `/equipment/` pages (equipment.py lines 359-421). -/
def sync_equipment_pages (s : EqSyncState) :
    List (Except String (List WgerEquipment)) → EqSyncReport
  | [] =>
      { message := syncCompletedLit, errorInfo := none, created := s.created,
        updated := s.updated, skipped := s.skipped, errors := s.errors }
  | (Except.error m) :: _ =>
      { message := fetchEquipFailLit, errorInfo := some m, created := s.created,
        updated := s.updated, skipped := s.skipped, errors := s.errors }
  | (Except.ok items) :: rest =>
      sync_equipment_pages (processEquipmentPage s items) rest

def initEqSyncState (store : List Equipment) (full_sync : Bool) : EqSyncState :=
  { store := if full_sync then [] else store,
    nextId := freshEquipmentId store,
    emap := if full_sync then [] else buildEquipmentMap store,
    created := 0, updated := 0, skipped := 0, errors := [] }

/-- `sync_equipment_from_wger` (equipment.py lines 294-421). -/
def sync_equipment_from_wger (store : List Equipment) (full_sync : Bool)
    (pages : List (Except String (List WgerEquipment))) : EqSyncReport :=
  sync_equipment_pages (initEqSyncState store full_sync) pages

/-! ## Equipment CSV export (`export_equipment`, equipment.py lines 132-178)

`csv.writer` / `csv.DictReader` round-trip every field string exactly, so the
export is modelled as producing the row records the import would read back. -/

/-- One exported row: `[name, description or "", "true" if enabled else "false"]`. -/
def exportEquipmentRow (e : Equipment) : CsvRow :=
  { name := some e.name,
    description := some (e.description.getD (String.mk [])),
    enabled := some (if e.enabled then litTrue else litFalse) }

/-- `export_equipment`: all equipment, one CSV row each, in store order. -/
def export_equipment (store : List Equipment) : List CsvRow :=
  store.map exportEquipmentRow

/-! ## Exercise-equipment linkage (`crud_exercise_equipment.py`) -/

/-- A row of the `exercise_equipment` association table. -/
structure ExerciseEquipmentLink where
  id : Nat
  exercise_id : Nat
  equipment_id : Nat
deriving Repr, DecidableEq

/-- A persistence write against the association table.  `link` is recorded when
`link_equipment` actually inserts a row (it first checks for an existing link
and returns it unchanged otherwise); `unlink` when `unlink_equipment` actually
deletes one. -/
inductive LinkOp where
  | link (exercise_id equipment_id : Nat)
  | unlink (exercise_id equipment_id : Nat)
deriving Repr, DecidableEq

structure LinkState where
  links : List ExerciseEquipmentLink
  nextId : Nat
deriving Repr, DecidableEq

/-- `get_by_exercise` (crud_exercise_equipment.py lines 10-13). -/
def get_by_exercise (links : List ExerciseEquipmentLink) (eid : Nat) :
    List ExerciseEquipmentLink :=
  links.filter (fun l => decide (l.exercise_id = eid))

/-- `link_equipment` (lines 20-36): create the link unless it already exists. -/
def link_equipment (s : LinkState) (eid qid : Nat) : LinkState × List LinkOp :=
  if s.links.any (fun l => decide (l.exercise_id = eid ∧ l.equipment_id = qid)) then
    (s, [])
  else
    ({ links := s.links ++ [{ id := s.nextId, exercise_id := eid, equipment_id := qid }],
       nextId := s.nextId + 1 },
     [LinkOp.link eid qid])

/-- `unlink_equipment` (lines 38-47): find the link and delete it by id. -/
def unlink_equipment (s : LinkState) (eid qid : Nat) : LinkState × List LinkOp :=
  match s.links.find? (fun l => decide (l.exercise_id = eid ∧ l.equipment_id = qid)) with
  | none => (s, [])
  | some l =>
      ({ s with links := s.links.filter (fun x => decide (x.id ≠ l.id)) },
       [LinkOp.unlink eid qid])

/-- `current_equipment_ids` (lines 52-56): the set of equipment ids currently
linked to the exercise.  Python's set is modelled as the first-occurrence
deduplication of the list; only membership and iteration are used downstream,
and no property proved below depends on the iteration order. -/
def currentEquipmentIds (links : List ExerciseEquipmentLink) (eid : Nat) : List Nat :=
  ((get_by_exercise links eid).map (fun l => l.equipment_id)).dedup

/-- The unlink loop of `set_equipment_for_exercise` (lines 58-61): unlink each
current equipment id that is not in the new list. -/
def removeLinksAux (eid : Nat) (equipment_ids : List Nat) :
    LinkState → List LinkOp → List Nat → LinkState × List LinkOp
  | s, ops, [] => (s, ops)
  | s, ops, q :: rest =>
      if equipment_ids.contains q then removeLinksAux eid equipment_ids s ops rest
      else
        let r := unlink_equipment s eid q
        removeLinksAux eid equipment_ids r.1 (ops ++ r.2) rest

/-- The link loop of `set_equipment_for_exercise` (lines 63-66): link each
desired equipment id that was not in the current set. -/
def addLinksAux (eid : Nat) (current : List Nat) :
    LinkState → List LinkOp → List Nat → LinkState × List LinkOp
  | s, ops, [] => (s, ops)
  | s, ops, q :: rest =>
      if current.contains q then addLinksAux eid current s ops rest
      else
        let r := link_equipment s eid q
        addLinksAux eid current r.1 (ops ++ r.2) rest

/-- `set_equipment_for_exercise` (lines 49-66): unlink current ids not in the
desired list, then link desired ids not currently linked.  Returns the final
table together with the trace of persistence writes. -/
def set_equipment_for_exercise (s : LinkState) (eid : Nat) (equipment_ids : List Nat) :
    LinkState × List LinkOp :=
  let current := currentEquipmentIds s.links eid
  let removePhase := removeLinksAux eid equipment_ids s [] current
  addLinksAux eid current removePhase.1 removePhase.2 equipment_ids

/-- Number of row outcomes recorded in an equipment-import state: every
processed row ends in exactly one of created / updated / skipped / errored. -/
def EqImportState.outcomeTally (st : EqImportState) : Nat :=
  st.created + st.updated + st.skipped + st.errors.length

/-! ## Proof-support specifications

These definitions do not model source code; they are the specification
vocabulary of the idempotence / round-trip theorems below: the key a CSV row
is matched under, and the record a case-insensitive identity map built from a
store associates to a key (the last store record with that key). -/

/-- The identity key of a CSV row: its name, stripped and case-folded. -/
def rowKeyE (r : CsvRow) : String :=
  plower (pstrip (r.name.getD (String.mk [])))

/-- The last element of `l` whose key is `κ` — what a dict built by inserting
`l` in order associates to `κ`. -/
def lastByKey {α : Type} (key : α → String) (κ : String) (l : List α) : Option α :=
  l.reverse.find? (fun e => decide (key e = κ))

/-- What one equipment-import row leaves, for its own key, in the store: the
matched record with the candidate description/enabled written over it, a
fresh record when nothing matched and the candidate validates, nothing on a
validation error. -/
def eqExpected (r : CsvRow) (old : Option EquipmentView) : Option EquipmentView :=
  let name := pstrip (r.name.getD (String.mk []))
  let description := parseDescription r.description
  let enabled := parseEnabledEquip r.enabled
  match old with
  | some v => some { name := v.name, description := description, enabled := enabled }
  | none =>
      if equipmentCreateInvalid name description then none
      else some { name := name, description := description, enabled := enabled }

/-- The errors one equipment-import row contributes, as a function of the view
its key resolves to. -/
def eqRowErrs (old : Option EquipmentView) (n : Nat) (r : CsvRow) : List String :=
  let name := pstrip (r.name.getD (String.mk []))
  if name = String.mk [] then []
  else
    match old with
    | some _ => []
    | none =>
        if equipmentCreateInvalid name (parseDescription r.description) then
          [eqCreateErrMsg n]
        else []

/-- Whether one equipment-import row ends in a non-error outcome
(created, updated or skipped). -/
def eqRowSettled (old : Option EquipmentView) (r : CsvRow) : Bool :=
  let name := pstrip (r.name.getD (String.mk []))
  if name = String.mk [] then true
  else
    match old with
    | some _ => true
    | none => !(equipmentCreateInvalid name (parseDescription r.description))

/-- The error list of an equipment-import run, row by row. -/
def eqRunErrs (vf : CsvRow → Option EquipmentView) : Nat → List CsvRow → List String
  | _, [] => []
  | n, r :: rest => eqRowErrs (vf r) n r ++ eqRunErrs vf (n + 1) rest

/-- Whether a CSV row carries a non-blank (post-strip) name. -/
def eqNonblank (r : CsvRow) : Bool :=
  decide (pstrip (r.name.getD (String.mk [])) ≠ String.mk [])

/-- A view an equipment-import row is content with: match it and find nothing
to change (skip), or miss and fail validation again (same error). -/
def EqSettledOld (r : CsvRow) (old : Option EquipmentView) : Prop :=
  match old with
  | some v =>
      v.description = parseDescription r.description ∧
        v.enabled = parseEnabledEquip r.enabled
  | none =>
      equipmentCreateInvalid (pstrip (r.name.getD (String.mk [])))
        (parseDescription r.description) = true

/-- The id-accumulating part of `resolveImportIds`, independent of the error
side: known names deduplicated in order onto `acc`. -/
def resolveIdsFrom (mgMap : List (String × Nat)) (acc : List Nat)
    (names : List String) : List Nat :=
  names.foldl
    (fun a nm =>
      match dget mgMap (plower nm) with
      | none => a
      | some i => if a.contains i then a else a ++ [i])
    acc

/-- The stripped name of an exercise CSV row. -/
def exRowName (r : CsvRow) : String :=
  pstrip (r.name.getD (String.mk []))

/-- The stripped primary-muscle-groups cell of an exercise CSV row. -/
def exRowPrimaryText (r : CsvRow) : String :=
  pstrip (r.primary_muscle_groups.getD (String.mk []))

/-- The stripped secondary-muscle-groups cell of an exercise CSV row. -/
def exRowSecondaryText (r : CsvRow) : String :=
  pstrip (r.secondary_muscle_groups.getD (String.mk []))

/-- Whether `parse_exercise_row` rejects the row (blank name or no usable
primary muscle group), independent of the row number. -/
def exRowRejected (r : CsvRow) : Bool :=
  decide (exRowName r = String.mk []) ||
    decide (exRowPrimaryText r = String.mk []) ||
    decide (splitNames (exRowPrimaryText r) = [])

/-- The primary muscle-group ids a candidate exercise row resolves to. -/
def exRowPids (mgMap : List (String × Nat)) (r : CsvRow) : List Nat :=
  resolveIdsFrom mgMap [] (splitNames (exRowPrimaryText r))

/-- The secondary muscle-group ids a candidate exercise row resolves to. -/
def exRowSids (mgMap : List (String × Nat)) (r : CsvRow) : List Nat :=
  if exRowSecondaryText r = String.mk [] then []
  else resolveIdsFrom mgMap [] (splitNames (exRowSecondaryText r))

/-- The enabled flag a candidate exercise row carries. -/
def exRowEnabled (r : CsvRow) : Bool :=
  parseEnabledExercise r.enabled

/-- The reconciliation error (if any) an exercise-import row adds after its
muscle-group errors, as a function of the record its key resolves to. -/
def exRowOutcomeErrs (old : Option Exercise) (n : Nat) (name : String)
    (pids sids : List Nat) (enabled : Bool) : List String :=
  match old with
  | some v =>
      if exercise_needs_update v name pids sids enabled then
        if exerciseUpdateInvalid v name pids then [exUpdateErrMsg n] else []
      else []
  | none =>
      if exerciseCreateInvalid name pids then [exCreateErrMsg n] else []

/-- The full error list one exercise-import row contributes. -/
def exRowErrs (mgMap : List (String × Nat)) (old : Option Exercise) (n : Nat)
    (r : CsvRow) : List String :=
  match parse_exercise_row mgMap n r with
  | .rejected errs => errs
  | .candidate errs name pids sids enabled =>
      errs ++ exRowOutcomeErrs old n name pids sids enabled

/-- Whether an exercise-import row ends in a created/updated/skipped outcome
(as opposed to a rejection or a validation error). -/
def exRowSettled (mgMap : List (String × Nat)) (old : Option Exercise)
    (r : CsvRow) : Bool :=
  if exRowRejected r then false
  else
    match old with
    | some v =>
        if exercise_needs_update v (exRowName r) (exRowPids mgMap r)
            (exRowSids mgMap r) (exRowEnabled r) then
          !(exerciseUpdateInvalid v (exRowName r) (exRowPids mgMap r))
        else true
    | none => !(exerciseCreateInvalid (exRowName r) (exRowPids mgMap r))

/-- The error list of an exercise-import run, row by row. -/
def exRunErrs (mgMap : List (String × Nat)) (vf : CsvRow → Option Exercise) :
    Nat → List CsvRow → List String
  | _, [] => []
  | n, r :: rest => exRowErrs mgMap (vf r) n r ++ exRunErrs mgMap vf (n + 1) rest

/-- A record an exercise-import row is content with: match it and find nothing
to change, match it and fail update validation again, or miss and fail create
validation again. -/
def ExSettledOld (mgMap : List (String × Nat)) (r : CsvRow)
    (old : Option Exercise) : Prop :=
  match old with
  | some v =>
      exercise_needs_update v (exRowName r) (exRowPids mgMap r)
          (exRowSids mgMap r) (exRowEnabled r) = false ∨
        exerciseUpdateInvalid v (exRowName r) (exRowPids mgMap r) = true
  | none => exerciseCreateInvalid (exRowName r) (exRowPids mgMap r) = true

/-- The record the matched exercise `v` holds after
`exerciseUpdateApply v name pids sids enabled` rewrites it. -/
def exUpdatedRecord (v : Exercise) (name : String) (pids sids : List Nat)
    (enabled : Bool) : Exercise :=
  { v with
      name := if v.name ≠ name then name else v.name,
      primary_muscle_group_ids :=
        if v.primary_muscle_group_ids.toFinset ≠ pids.toFinset then pids
        else v.primary_muscle_group_ids,
      secondary_muscle_group_ids :=
        if v.secondary_muscle_group_ids.toFinset ≠ sids.toFinset then sids
        else v.secondary_muscle_group_ids,
      enabled := if v.enabled ≠ enabled then enabled else v.enabled }

/-! ## Concrete instances used by the theorems below -/

def sBand : String := "Band"
def sbandLower : String := "band"
def sSpaceBand : String := " Band"
def sDescA : String := "a"
def sDescB : String := "b"
def sNice : String := "nice"
def sRope : String := "rope"
def sChest : String := "Chest"
def sFooUpper : String := "Foo"
def sFooLower : String := "foo"
def sX : String := "x"
def sB : String := "B"
def sC : String := "C"
def sP : String := "P"
def sBench : String := "bench"
def sBC : String := "B, C"
def sBoom : String := "boom"
def sLats : String := "Lats"

/-- Claim C2's row 1: `{"name": "Band", "enabled": "true"}`. -/
def c2Row1 : CsvRow := { name := some sBand, enabled := some litTrue }

/-- Claim C2's row 2: `{"name": "band", "enabled": "false"}`. -/
def c2Row2 : CsvRow := { name := some sbandLower, enabled := some litFalse }

/-- Two rows with the same name and different descriptions. -/
def dupRowA : CsvRow := { name := some sBand, description := some sDescA }

def dupRowB : CsvRow := { name := some sBand, description := some sDescB }

def mgChest : MuscleGroup := { id := 1, name := sChest }

def rowFooUpper : CsvRow := { name := some sFooUpper, primary_muscle_groups := some sChest }

def rowFooLower : CsvRow := { name := some sFooLower, primary_muscle_groups := some sChest }

/-- A malformed exercise row: name present, the required primary muscle group
column missing. -/
def badExRow : CsvRow := { name := some sX }

/-- A wger exercise candidate with no entry in the translations map. -/
def badWgerExercise (k : Nat) : WgerExercise := { id := some (200 + k) }

def mgsC5 : List MuscleGroup :=
  [{ id := 5, name := sP }, { id := 2, name := sB }, { id := 3, name := sC }]

/-- Stored exercise with secondary muscle groups in order `[3, 2]`. -/
def exBench : Exercise :=
  { id := 1, name := sBench, primary_muscle_group_ids := [5],
    secondary_muscle_group_ids := [3, 2], enabled := true }

/-- Candidate row whose secondary muscle groups resolve to `[2, 3]`. -/
def rowBench : CsvRow :=
  { name := some sBench, primary_muscle_groups := some sP,
    secondary_muscle_groups := some sBC }

/-- Equipment whose name carries leading whitespace. -/
def eqSpaceBand : Equipment := { id := 1, name := sSpaceBand, description := none, enabled := true }

def eqBand : Equipment := { id := 1, name := sBand, description := some sNice, enabled := true }

def eqRope : Equipment := { id := 2, name := sRope, description := none, enabled := false }

def linkOne : ExerciseEquipmentLink := { id := 1, exercise_id := 4, equipment_id := 5 }

def linkTwo : ExerciseEquipmentLink := { id := 2, exercise_id := 4, equipment_id := 6 }

def linksC9 : LinkState := { links := [linkOne, linkTwo], nextId := 3 }

def sQuads : String := "Quads"
def sPress : String := "Press"

/-- Equipment inserted by a concurrent writer, same name as `c2Row1`. -/
def eqRaceIns : Equipment := { id := 9, name := sBand, description := none, enabled := true }

def mgQuads : MuscleGroup := { id := 2, name := sQuads }

/-- Exercise inserted by a concurrent writer, same name as the candidate below. -/
def exPressIns : Exercise :=
  { id := 50, name := sPress, primary_muscle_group_ids := [2],
    secondary_muscle_group_ids := [], enabled := true }

/-- Wger candidate whose translation is `Press` and whose only muscle is 9. -/
def wPress : WgerExercise := { id := some 100, muscles := [9] }

def musclesMapC3 : List (Nat × String) := [(9, sQuads)]

def translationsMapC3 : List (Nat × String) := [(100, sPress)]

def sSquat : String := "Squat"

def mgLats : MuscleGroup := { id := 1, name := sLats }

/-- An exercise present before the C6 full resync. -/
def exSquat : Exercise :=
  { id := 7, name := sSquat, primary_muscle_group_ids := [1],
    secondary_muscle_group_ids := [], enabled := true }

/-- The exercise the C6 full resync creates from the Press candidate: its id 8
continues the autoincrement sequence from before the deletion. -/
def exPressNew : Exercise :=
  { id := 8, name := sPress, primary_muscle_group_ids := [2],
    secondary_muscle_group_ids := [], enabled := true }

end LiftTracker

namespace LiftTracker

/-! # Theorems -/

/-- C2: running the equipment CSV import with rows name=Band/enabled=true and
name=band/enabled=false against an empty store creates Band with enabled=true
from row 1 (shown by the one-row prefix run), matches row 2 to it
case-insensitively, detects the enabled flag changing from true to false and
updates it, and reports created=1, updated=1, skipped=0 with no errors. -/
theorem C2_equipment_import_example_scenario :
    (import_equipment [] [c2Row1]).store =
      [{ id := 1, name := sBand, description := none, enabled := true }] ∧
    (import_equipment [] [c2Row1, c2Row2]).store =
      [{ id := 1, name := sBand, description := none, enabled := false }] ∧
    (import_equipment [] [c2Row1, c2Row2]).created = 1 ∧
    (import_equipment [] [c2Row1, c2Row2]).updated = 1 ∧
    (import_equipment [] [c2Row1, c2Row2]).skipped = 0 ∧
    (import_equipment [] [c2Row1, c2Row2]).errors = [] := by
  decide

/-- C1 counterexample: a batch listing the same equipment name twice with
different descriptions is not idempotent — re-running the import with the
identical input against the store left by the first run performs an UPDATE
(the first run left the store holding description b while its stale in-memory
map made row 1 write description a again), so the second run reports
updated = 1 and only 1 skip instead of all skips. -/
theorem C1_counterexample_duplicate_name_batch :
    (import_equipment (import_equipment [] [dupRowA, dupRowB]).store
        [dupRowA, dupRowB]).updated = 1 ∧
    (import_equipment (import_equipment [] [dupRowA, dupRowB]).store
        [dupRowA, dupRowB]).skipped = 1 := by
  decide

/-- C4 counterexample: the exercise CSV import does not register a created
record in its case-insensitive identity map, so a batch with rows Foo and foo
(same name up to case) against an empty store creates two separate exercises
in one run instead of matching the second row to the first row's record. -/
theorem C4_counterexample_import_exercises_creates_case_duplicate :
    (import_exercises [] [mgChest] [rowFooUpper, rowFooLower]).created = 2 ∧
    ((import_exercises [] [mgChest] [rowFooUpper, rowFooLower]).store.map
        (fun e => e.name)) = [sFooUpper, sFooLower] ∧
    plower sFooUpper = plower sFooLower := by
  decide

/-- C7 counterexample: the CSV exercise import does not cap its error list —
51 malformed rows (missing primary muscle group) produce a report with 51
error entries, more than the claimed maximum of 50. -/
theorem C7_counterexample_import_errors_uncapped :
    (import_exercises [] [] (List.replicate 51 badExRow)).errors.length = 51 ∧
    50 < (import_exercises [] [] (List.replicate 51 badExRow)).errors.length := by
  decide

/-- C10 counterexample: an equipment store whose single entry is named
" Band" (leading space; names case-insensitively distinct, description None)
does not round-trip: the import strips the exported name, misses the identity
map and creates a second record, so created = 1 instead of 0. -/
theorem C10_counterexample_whitespace_name :
    (import_equipment [eqSpaceBand] (export_equipment [eqSpaceBand])).created = 1 ∧
    (import_equipment [eqSpaceBand] (export_equipment [eqSpaceBand])).skipped = 0 := by
  decide

/-- C5: both reconcilers compare the muscle-group reference lists of a
candidate and its name-matched record as sets (order and duplicates ignored),
and the other compared fields by equality — `needs_update` is false exactly
when name, both id sets, and (for the CSV import) the enabled flag agree.
In particular, importing a candidate whose secondary ids resolve to `[2, 3]`
against a record storing `[3, 2]`, all other fields equal, is reported as
SKIPPED, not UPDATE. -/
theorem C5_reference_lists_set_equality :
    (∀ (v : Exercise) (name : String) (pids sids : List Nat) (enabled : Bool),
        exercise_needs_update v name pids sids enabled = false ↔
          (v.name = name ∧
            v.primary_muscle_group_ids.toFinset = pids.toFinset ∧
            v.secondary_muscle_group_ids.toFinset = sids.toFinset ∧
            v.enabled = enabled)) ∧
    (∀ (v : Exercise) (name : String) (pids sids : List Nat),
        sync_needs_update v name pids sids = false ↔
          (v.name = name ∧
            v.primary_muscle_group_ids.toFinset = pids.toFinset ∧
            v.secondary_muscle_group_ids.toFinset = sids.toFinset)) ∧
    parse_exercise_row (buildMgMapImport mgsC5) 2 rowBench =
      ExRowParse.candidate [] sBench [5] [2, 3] true ∧
    exBench.secondary_muscle_group_ids = [3, 2] ∧
    (import_exercises [exBench] mgsC5 [rowBench]).skipped = 1 ∧
    (import_exercises [exBench] mgsC5 [rowBench]).updated = 0 := by
  refine ⟨?_, ?_, by decide, by decide, by decide, by decide⟩
  · intro v name pids sids enabled
    simp [exercise_needs_update, not_or, and_assoc]
  · intro v name pids sids
    simp [sync_needs_update, not_or, and_assoc]

/-- C8: a failed page fetch ends the pagination loop of both wger syncs — the
remaining pages are never consulted — and the endpoint still returns the
report with the counters and errors accumulated over the pages fetched so far
(plus the fetch-failure information) instead of raising. -/
theorem C8_source_fetch_failure_partial_progress :
    (∀ (s : EqSyncState) (good : List (List WgerEquipment)) (m : String)
        (rest : List (Except String (List WgerEquipment))),
        sync_equipment_pages s (good.map Except.ok ++ Except.error m :: rest) =
          { message := fetchEquipFailLit, errorInfo := some m,
            created := (good.foldl processEquipmentPage s).created,
            updated := (good.foldl processEquipmentPage s).updated,
            skipped := (good.foldl processEquipmentPage s).skipped,
            errors := (good.foldl processEquipmentPage s).errors }) ∧
    (∀ (mm tm : List (Nat × String)) (s : ExSyncState)
        (good : List (List WgerExercise)) (m : String)
        (rest : List (Except String (List WgerExercise))),
        sync_exercise_pages mm tm s (good.map Except.ok ++ Except.error m :: rest) =
          { good.foldl (processExercisePage mm tm) s with
              errors := (good.foldl (processExercisePage mm tm) s).errors ++
                [fetchExercisesFailLit ++ m] }) := by
  constructor
  · intro s good m rest
    induction good generalizing s with
    | nil => simp [sync_equipment_pages]
    | cons p ps ih => simp [sync_equipment_pages, ih]
  · intro mm tm s good m rest
    induction good generalizing s with
    | nil => simp [sync_exercise_pages]
    | cons p ps ih => simp [sync_exercise_pages, ih]

set_option maxRecDepth 40000

/-- C7 amended: only the wger exercise sync caps the error list it returns, at
50 entries (`errors[:50]`); the CSV imports return the full error list.  In
all cases per-row processing continues past erroring rows: a sync batch of 100
malformed candidates accumulates all 100 errors internally (every row was
processed) while the response reports the first 50, and a CSV import batch of
100 malformed rows reports all 100 errors. -/
theorem C7_amended_error_cap :
    (∀ (exStore : List Exercise) (mgStore : List MuscleGroup)
        (mm tm : List (Nat × String)) (full : Bool)
        (pages : List (Except String (List WgerExercise))),
        (sync_exercises_report exStore mgStore mm tm full pages).errors.length ≤ 50) ∧
    (sync_exercises_from_wger [] [] [] [] false
        [Except.ok ((List.range 100).map badWgerExercise)]).errors.length = 100 ∧
    (sync_exercises_report [] [] [] [] false
        [Except.ok ((List.range 100).map badWgerExercise)]).errors =
      (sync_exercises_from_wger [] [] [] [] false
        [Except.ok ((List.range 100).map badWgerExercise)]).errors.take 50 ∧
    (sync_exercises_report [] [] [] [] false
        [Except.ok ((List.range 100).map badWgerExercise)]).errors.length = 50 ∧
    (import_exercises [] [] (List.replicate 100 badExRow)).errors.length = 100 := by
  refine ⟨?_, by decide, by decide, by decide, by decide⟩
  intro exStore mgStore mm tm full pages
  simp [sync_exercises_report, exSyncReport]

theorem import_equipment_row_outcomeTally (ins : List Equipment) (st : EqImportState)
    (rowNum : Nat) (r : CsvRow) :
    (import_equipment_row ins st rowNum r).outcomeTally = st.outcomeTally + 1 := by
  unfold import_equipment_row
  dsimp only
  repeat' split
  all_goals simp [EqImportState.outcomeTally]
  all_goals omega

theorem import_equipment_rows_outcomeTally (rows : List (CsvRow × List Equipment)) :
    ∀ (st : EqImportState) (n : Nat),
      (import_equipment_rows st n rows).outcomeTally = st.outcomeTally + rows.length := by
  induction rows with
  | nil =>
      intro st n
      simp [import_equipment_rows]
  | cons p ps ih =>
      intro st n
      obtain ⟨r, ins⟩ := p
      rw [import_equipment_rows, ih, import_equipment_row_outcomeTally]
      simp [Nat.add_assoc, Nat.add_comm]

/-- The create step of the wger exercise sync under a duplicate-key race:
given that the candidate parses, misses both identity lookups, validates, and
the store (after the concurrent insertions `ins`) holds the exact name, the
candidate rolls back, re-queries by name, registers the found record and is
counted as skipped. -/
theorem sync_process_exercise_race (mm tm : List (Nat × String)) (ins : List Exercise)
    (s s1 s2 : ExSyncState) (w : WgerExercise) (i : Nat) (name : String)
    (pids sids : List Nat) (efound : Exercise)
    (hid : w.id = some i)
    (htm : nget tm i = some name)
    (hne : name ≠ String.mk [])
    (hm : w.muscles ≠ [])
    (hrp : resolveSyncPrimary mm name s w.muscles = (s1, pids))
    (hrs : resolveSyncSecondary mm name s1 w.muscles_secondary = (s2, sids))
    (hmap : dget s2.exMap (plower name) = none)
    (hdb : s2.exStore.find? (fun (e : Exercise) => decide (e.name = name)) = none)
    (hval : exerciseCreateInvalid name pids = false)
    (hfound : (s2.exStore ++ ins).find? (fun (e : Exercise) => decide (e.name = name)) =
      some efound) :
    sync_process_exercise mm tm ins s w =
      { s2 with exStore := s2.exStore ++ ins,
                exMap := dinsert (plower name) efound s2.exMap,
                skipped := s2.skipped + 1 } := by
  have hmem : efound ∈ s2.exStore ++ ins := List.mem_of_find?_eq_some hfound
  have hp := List.find?_some hfound
  have hany : (s2.exStore ++ ins).any (fun (e : Exercise) => decide (e.name = name)) = true :=
    List.any_eq_true.mpr ⟨efound, hmem, hp⟩
  unfold sync_process_exercise
  rw [hid]
  simp only [htm, hrp, hrs, if_neg hne, if_neg hm]
  unfold sync_reconcile_exercise
  simp only [hmap, hdb, hval, hany, hfound, Bool.false_eq_true, if_false, if_true]

/-- C3: duplicate-key race recovery.  First conjunct: in the equipment CSV
import, a row whose create hits the unique-name constraint (a concurrent
writer inserted the name after the identity map was consulted) is rolled back
and counted as skipped, with the rest of the state untouched.  Second
conjunct: every row of an equipment import batch — under any concurrent-writer
schedule — lands in exactly one of created/updated/skipped/errored, so a
racing row never stops the batch.  Third conjunct: the same recovery in the
wger exercise sync, where the row is additionally re-queried by name and the
found record registered in the identity map. -/
theorem C3_duplicate_key_race_recovered_as_skip :
    (∀ (st : EqImportState) (rowNum : Nat) (r : CsvRow) (ins : List Equipment)
        (name : String),
        name = pstrip (r.name.getD (String.mk [])) →
        name ≠ String.mk [] →
        dget st.emap (plower name) = none →
        equipmentCreateInvalid name (parseDescription r.description) = false →
        (st.store ++ ins).any (fun (e : Equipment) => decide (e.name = name)) = true →
        import_equipment_row ins st rowNum r =
          { st with store := st.store ++ ins, skipped := st.skipped + 1 }) ∧
    (∀ (store : List Equipment) (rows : List (CsvRow × List Equipment)),
        (import_equipment_concurrent store rows).created +
          (import_equipment_concurrent store rows).updated +
          (import_equipment_concurrent store rows).skipped +
          (import_equipment_concurrent store rows).errors.length = rows.length) ∧
    (∀ (mm tm : List (Nat × String)) (ins : List Exercise)
        (s s1 s2 : ExSyncState) (w : WgerExercise) (i : Nat) (name : String)
        (pids sids : List Nat) (efound : Exercise),
        w.id = some i →
        nget tm i = some name →
        name ≠ String.mk [] →
        w.muscles ≠ [] →
        resolveSyncPrimary mm name s w.muscles = (s1, pids) →
        resolveSyncSecondary mm name s1 w.muscles_secondary = (s2, sids) →
        dget s2.exMap (plower name) = none →
        s2.exStore.find? (fun (e : Exercise) => decide (e.name = name)) = none →
        exerciseCreateInvalid name pids = false →
        (s2.exStore ++ ins).find? (fun (e : Exercise) => decide (e.name = name)) =
          some efound →
        sync_process_exercise mm tm ins s w =
          { s2 with exStore := s2.exStore ++ ins,
                    exMap := dinsert (plower name) efound s2.exMap,
                    skipped := s2.skipped + 1 }) := by
  refine ⟨?_, ?_, ?_⟩
  · intro st rowNum r ins name hname hne hmap hval hany
    unfold import_equipment_row
    rw [← hname]
    simp only [hmap, hval, hany, if_neg hne, Bool.false_eq_true, if_false, if_true]
  · intro store rows
    have h := import_equipment_rows_outcomeTally rows (initEqImportState store) 2
    simpa [EqImportState.outcomeTally, initEqImportState,
      import_equipment_concurrent] using h
  · intro mm tm ins s s1 s2 w i name pids sids efound hid htm hne hm hrp hrs hmap hdb
      hval hfound
    exact sync_process_exercise_race mm tm ins s s1 s2 w i name pids sids efound hid
      htm hne hm hrp hrs hmap hdb hval hfound

/-- Witness for C3 at concrete inputs: a concurrent writer inserts Band while
the equipment import is creating Band, and Press while the exercise sync is
creating Press; both rows are recovered as skips (and the sync registers the
concurrently created record). -/
theorem C3_duplicate_key_race_recovered_as_skip_witness :
    import_equipment_row [eqRaceIns] (initEqImportState []) 2 c2Row1 =
      { initEqImportState [] with
          store := (initEqImportState []).store ++ [eqRaceIns],
          skipped := (initEqImportState []).skipped + 1 } ∧
    (import_equipment_concurrent [] [(c2Row1, [eqRaceIns])]).created +
      (import_equipment_concurrent [] [(c2Row1, [eqRaceIns])]).updated +
      (import_equipment_concurrent [] [(c2Row1, [eqRaceIns])]).skipped +
      (import_equipment_concurrent [] [(c2Row1, [eqRaceIns])]).errors.length = 1 ∧
    sync_process_exercise musclesMapC3 translationsMapC3 [exPressIns]
        (initExSyncState [] [mgQuads] false) wPress =
      { initExSyncState [] [mgQuads] false with
          exStore := (initExSyncState [] [mgQuads] false).exStore ++ [exPressIns],
          exMap := dinsert (plower sPress) exPressIns
            (initExSyncState [] [mgQuads] false).exMap,
          skipped := (initExSyncState [] [mgQuads] false).skipped + 1 } :=
  ⟨C3_duplicate_key_race_recovered_as_skip.1 (initEqImportState []) 2 c2Row1 [eqRaceIns]
      sBand (by decide) (by decide) (by decide) (by decide) (by decide),
   C3_duplicate_key_race_recovered_as_skip.2.1 [] [(c2Row1, [eqRaceIns])],
   C3_duplicate_key_race_recovered_as_skip.2.2 musclesMapC3 translationsMapC3 [exPressIns]
      (initExSyncState [] [mgQuads] false) (initExSyncState [] [mgQuads] false)
      (initExSyncState [] [mgQuads] false) wPress 100 sPress [2] [] exPressIns
      (by decide) (by decide) (by decide) (by decide) (by decide) (by decide)
      (by decide) (by decide) (by decide) (by decide)⟩

theorem le_foldl_max_init {α : Type} (f : α → Nat) :
    ∀ (l : List α) (a : Nat), a ≤ l.foldl (fun m e => max m (f e)) a := by
  intro l
  induction l with
  | nil => intro a; exact le_refl a
  | cons y ys ih => intro a; exact le_trans (le_max_left a (f y)) (ih (max a (f y)))

theorem mem_le_foldl_max {α : Type} (f : α → Nat) :
    ∀ (l : List α) (a : Nat) (x : α), x ∈ l → f x ≤ l.foldl (fun m e => max m (f e)) a := by
  intro l
  induction l with
  | nil =>
      intro a x hx
      cases hx
  | cons y ys ih =>
      intro a x hx
      cases hx with
      | head => exact le_trans (le_max_right a (f y)) (le_foldl_max_init f ys (max a (f y)))
      | tail _ h => exact ih (max a (f y)) x h

theorem id_lt_freshExerciseId (store : List Exercise) (e : Exercise) (he : e ∈ store) :
    e.id < freshExerciseId store :=
  Nat.lt_succ_of_le (mem_le_foldl_max (fun x => x.id) store 0 e he)

theorem syncGetOrCreateMg_frame (exName mname : String) (s : ExSyncState) (out : List Nat) :
    (syncGetOrCreateMg exName mname s out).1.exStore = s.exStore ∧
    (syncGetOrCreateMg exName mname s out).1.nextExId = s.nextExId ∧
    (syncGetOrCreateMg exName mname s out).1.exMap = s.exMap ∧
    s.mgStore <+: (syncGetOrCreateMg exName mname s out).1.mgStore := by
  unfold syncGetOrCreateMg
  dsimp only
  repeat' split
  all_goals simp [List.prefix_append]

theorem resolveSyncPrimaryAux_frame (mm : List (Nat × String)) (exName : String) :
    ∀ (ids : List Nat) (s : ExSyncState) (out : List Nat),
      (resolveSyncPrimaryAux mm exName s out ids).1.exStore = s.exStore ∧
      (resolveSyncPrimaryAux mm exName s out ids).1.nextExId = s.nextExId ∧
      (resolveSyncPrimaryAux mm exName s out ids).1.exMap = s.exMap ∧
      s.mgStore <+: (resolveSyncPrimaryAux mm exName s out ids).1.mgStore := by
  intro ids
  induction ids with
  | nil =>
      intro s out
      simp [resolveSyncPrimaryAux]
  | cons mid rest ih =>
      intro s out
      rw [resolveSyncPrimaryAux]
      split
      · exact ih _ out
      · rename_i mname hm
        obtain ⟨h1, h2, h3, h4⟩ := syncGetOrCreateMg_frame exName mname s out
        obtain ⟨g1, g2, g3, g4⟩ := ih (syncGetOrCreateMg exName mname s out).1
          (syncGetOrCreateMg exName mname s out).2
        exact ⟨g1.trans h1, g2.trans h2, g3.trans h3, h4.trans g4⟩

theorem resolveSyncSecondaryAux_frame (mm : List (Nat × String)) (exName : String) :
    ∀ (ids : List Nat) (s : ExSyncState) (out : List Nat),
      (resolveSyncSecondaryAux mm exName s out ids).1.exStore = s.exStore ∧
      (resolveSyncSecondaryAux mm exName s out ids).1.nextExId = s.nextExId ∧
      (resolveSyncSecondaryAux mm exName s out ids).1.exMap = s.exMap ∧
      s.mgStore <+: (resolveSyncSecondaryAux mm exName s out ids).1.mgStore := by
  intro ids
  induction ids with
  | nil =>
      intro s out
      simp [resolveSyncSecondaryAux]
  | cons mid rest ih =>
      intro s out
      rw [resolveSyncSecondaryAux]
      split
      · exact ih s out
      · rename_i mname hm
        obtain ⟨h1, h2, h3, h4⟩ := syncGetOrCreateMg_frame exName mname s out
        obtain ⟨g1, g2, g3, g4⟩ := ih (syncGetOrCreateMg exName mname s out).1
          (syncGetOrCreateMg exName mname s out).2
        exact ⟨g1.trans h1, g2.trans h2, g3.trans h3, h4.trans g4⟩

theorem syncUpdateApply_mem (v : Exercise) (name : String) (pids sids : List Nat)
    (store : List Exercise) (e : Exercise)
    (he : e ∈ syncUpdateApply v name pids sids store) :
    ∃ e0 ∈ store, e0.id = e.id := by
  unfold syncUpdateApply at he
  rcases List.mem_map.mp he with ⟨e0, h0, hfe⟩
  refine ⟨e0, h0, ?_⟩
  rw [← hfe]
  by_cases h : e0.id = v.id <;> simp [h]

theorem sync_reconcile_exercise_frame (s : ExSyncState) (name : String)
    (pids sids : List Nat) :
    (sync_reconcile_exercise [] s name pids sids).mgStore = s.mgStore ∧
    s.nextExId ≤ (sync_reconcile_exercise [] s name pids sids).nextExId ∧
    ∀ e ∈ (sync_reconcile_exercise [] s name pids sids).exStore,
      (∃ e0 ∈ s.exStore, e0.id = e.id) ∨ s.nextExId ≤ e.id := by
  unfold sync_reconcile_exercise
  dsimp only
  repeat' split
  all_goals refine ⟨rfl, ?_, ?_⟩
  all_goals try exact le_refl _
  all_goals try exact Nat.le_succ _
  all_goals intro e he
  all_goals simp only [List.append_nil] at he
  all_goals try exact Or.inl ⟨e, he, rfl⟩
  all_goals try exact Or.inl (syncUpdateApply_mem _ _ _ _ _ _ he)
  all_goals rcases List.mem_append.mp he with h | h
  all_goals try exact Or.inl ⟨e, h, rfl⟩
  all_goals rw [List.mem_singleton.mp h]
  all_goals exact Or.inr (le_refl _)

theorem resolveSyncPrimary_frame (mm : List (Nat × String)) (exName : String)
    (s : ExSyncState) (ids : List Nat) :
    (resolveSyncPrimary mm exName s ids).1.exStore = s.exStore ∧
    (resolveSyncPrimary mm exName s ids).1.nextExId = s.nextExId ∧
    (resolveSyncPrimary mm exName s ids).1.exMap = s.exMap ∧
    s.mgStore <+: (resolveSyncPrimary mm exName s ids).1.mgStore := by
  unfold resolveSyncPrimary
  exact resolveSyncPrimaryAux_frame mm exName ids s []

theorem resolveSyncSecondary_frame (mm : List (Nat × String)) (exName : String)
    (s : ExSyncState) (ids : List Nat) :
    (resolveSyncSecondary mm exName s ids).1.exStore = s.exStore ∧
    (resolveSyncSecondary mm exName s ids).1.nextExId = s.nextExId ∧
    (resolveSyncSecondary mm exName s ids).1.exMap = s.exMap ∧
    s.mgStore <+: (resolveSyncSecondary mm exName s ids).1.mgStore := by
  unfold resolveSyncSecondary
  exact resolveSyncSecondaryAux_frame mm exName ids s []

theorem sync_process_exercise_frame (mm tm : List (Nat × String)) (s : ExSyncState)
    (w : WgerExercise) :
    s.mgStore <+: (sync_process_exercise mm tm [] s w).mgStore ∧
    s.nextExId ≤ (sync_process_exercise mm tm [] s w).nextExId ∧
    ∀ e ∈ (sync_process_exercise mm tm [] s w).exStore,
      (∃ e0 ∈ s.exStore, e0.id = e.id) ∨ s.nextExId ≤ e.id := by
  unfold sync_process_exercise
  dsimp only
  split
  · exact ⟨List.prefix_rfl, le_refl _, fun e he => Or.inl ⟨e, he, rfl⟩⟩
  · rename_i name hname
    split
    · exact ⟨List.prefix_rfl, le_refl _, fun e he => Or.inl ⟨e, he, rfl⟩⟩
    · split
      · exact ⟨List.prefix_rfl, le_refl _, fun e he => Or.inl ⟨e, he, rfl⟩⟩
      · obtain ⟨p1, p2, p3, p4⟩ := resolveSyncPrimary_frame mm name s w.muscles
        obtain ⟨q1, q2, q3, q4⟩ := resolveSyncSecondary_frame mm name
          (resolveSyncPrimary mm name s w.muscles).1 w.muscles_secondary
        obtain ⟨r1, r2, r3⟩ := sync_reconcile_exercise_frame
          (resolveSyncSecondary mm name (resolveSyncPrimary mm name s w.muscles).1
            w.muscles_secondary).1
          name (resolveSyncPrimary mm name s w.muscles).2
          (resolveSyncSecondary mm name (resolveSyncPrimary mm name s w.muscles).1
            w.muscles_secondary).2
        refine ⟨?_, ?_, ?_⟩
        · rw [r1]
          exact p4.trans q4
        · rw [q2, p2] at r2
          exact r2
        · intro e he
          rcases r3 e he with ⟨e1, h1, hid⟩ | hge
          · rw [q1, p1] at h1
            exact Or.inl ⟨e1, h1, hid⟩
          · rw [q2, p2] at hge
            exact Or.inr hge

theorem processExercisePage_frame (mm tm : List (Nat × String)) :
    ∀ (items : List WgerExercise) (s : ExSyncState),
      s.mgStore <+: (processExercisePage mm tm s items).mgStore ∧
      s.nextExId ≤ (processExercisePage mm tm s items).nextExId ∧
      ∀ e ∈ (processExercisePage mm tm s items).exStore,
        (∃ e0 ∈ s.exStore, e0.id = e.id) ∨ s.nextExId ≤ e.id := by
  intro items
  induction items with
  | nil =>
      intro s
      exact ⟨List.prefix_rfl, le_refl _, fun e he => Or.inl ⟨e, he, rfl⟩⟩
  | cons w ws ih =>
      intro s
      have hstep := sync_process_exercise_frame mm tm s w
      have hrest := ih (sync_process_exercise mm tm [] s w)
      have heq : processExercisePage mm tm s (w :: ws) =
          processExercisePage mm tm (sync_process_exercise mm tm [] s w) ws := by
        simp [processExercisePage]
      rw [heq]
      refine ⟨hstep.1.trans hrest.1, le_trans hstep.2.1 hrest.2.1, ?_⟩
      intro e he
      rcases hrest.2.2 e he with ⟨e1, h1, hid⟩ | hge
      · rcases hstep.2.2 e1 h1 with ⟨e0, h0, hid0⟩ | hge1
        · exact Or.inl ⟨e0, h0, hid0.trans hid⟩
        · exact Or.inr (hid ▸ hge1)
      · exact Or.inr (le_trans hstep.2.1 hge)

theorem sync_exercise_pages_frame (mm tm : List (Nat × String)) :
    ∀ (pages : List (Except String (List WgerExercise))) (s : ExSyncState),
      s.mgStore <+: (sync_exercise_pages mm tm s pages).mgStore ∧
      s.nextExId ≤ (sync_exercise_pages mm tm s pages).nextExId ∧
      ∀ e ∈ (sync_exercise_pages mm tm s pages).exStore,
        (∃ e0 ∈ s.exStore, e0.id = e.id) ∨ s.nextExId ≤ e.id := by
  intro pages
  induction pages with
  | nil =>
      intro s
      exact ⟨List.prefix_rfl, le_refl _, fun e he => Or.inl ⟨e, he, rfl⟩⟩
  | cons pg rest ih =>
      intro s
      cases pg with
      | error m =>
          rw [sync_exercise_pages]
          exact ⟨List.prefix_rfl, le_refl _, fun e he => Or.inl ⟨e, he, rfl⟩⟩
      | ok items =>
          rw [sync_exercise_pages]
          have hstep := processExercisePage_frame mm tm items s
          have hrest := ih (processExercisePage mm tm s items)
          refine ⟨hstep.1.trans hrest.1, le_trans hstep.2.1 hrest.2.1, ?_⟩
          intro e he
          rcases hrest.2.2 e he with ⟨e1, h1, hid⟩ | hge
          · rcases hstep.2.2 e1 h1 with ⟨e0, h0, hid0⟩ | hge1
            · exact Or.inl ⟨e0, h0, hid0.trans hid⟩
            · exact Or.inr (hid ▸ hge1)
          · exact Or.inr (le_trans hstep.2.1 hge)

/-- C6: a full resync of exercises first deletes every exercise — the state in
which candidates are processed holds no exercises — and every exercise present
after the run is a fresh creation whose id differs from every pre-run exercise
id (ids continue the autoincrement sequence from before the deletion); the
muscle-group store is only ever appended to, so every pre-run muscle group
survives unchanged, in place, as a prefix of the final muscle-group store. -/
theorem C6_full_resync_frame (exStore : List Exercise) (mgStore : List MuscleGroup)
    (mm tm : List (Nat × String)) (pages : List (Except String (List WgerExercise))) :
    (initExSyncState exStore mgStore true).exStore = [] ∧
    mgStore <+:
      (sync_exercises_from_wger exStore mgStore mm tm true pages).mgStore ∧
    ∀ e ∈ (sync_exercises_from_wger exStore mgStore mm tm true pages).exStore,
      ∀ e0 ∈ exStore, e.id ≠ e0.id := by
  have h := sync_exercise_pages_frame mm tm pages (initExSyncState exStore mgStore true)
  refine ⟨rfl, h.1, ?_⟩
  intro e he e0 h0
  rcases h.2.2 e he with ⟨e1, h1, _⟩ | hge
  · simp [initExSyncState] at h1
  · have hfresh : freshExerciseId exStore ≤ e.id := hge
    have hlt := id_lt_freshExerciseId exStore e0 h0
    omega

/-- Witness for C6: a concrete full resync of a store holding Squat (id 7),
muscle groups holding Lats, against one wger page containing Press; the Lats
muscle group survives as a prefix and the created Press (id 8) has an id
different from Squat's. -/
theorem C6_full_resync_frame_witness :
    (initExSyncState [exSquat] [mgLats] true).exStore = [] ∧
    ([mgLats] <+: (sync_exercises_from_wger [exSquat] [mgLats] musclesMapC3
      translationsMapC3 true [Except.ok [wPress]]).mgStore) ∧
    exPressNew.id ≠ exSquat.id :=
  have h := C6_full_resync_frame [exSquat] [mgLats] musclesMapC3 translationsMapC3
    [Except.ok [wPress]]
  ⟨h.1, h.2.1, h.2.2 exPressNew (by decide) exSquat (by decide)⟩

theorem mem_currentEquipmentIds (links : List ExerciseEquipmentLink) (eid q : Nat) :
    q ∈ currentEquipmentIds links eid ↔
      ∃ l ∈ links, l.exercise_id = eid ∧ l.equipment_id = q := by
  simp only [currentEquipmentIds, get_by_exercise, List.mem_dedup, List.mem_map,
    List.mem_filter, decide_eq_true_eq]
  constructor
  · rintro ⟨l, ⟨hl, hex⟩, heq⟩
    exact ⟨l, hl, hex, heq⟩
  · rintro ⟨l, hl, hex, heq⟩
    exact ⟨l, ⟨hl, hex⟩, heq⟩

theorem nodup_currentEquipmentIds (links : List ExerciseEquipmentLink) (eid : Nat) :
    (currentEquipmentIds links eid).Nodup :=
  List.nodup_dedup _

theorem unlink_equipment_none (s : LinkState) (eid q : Nat)
    (h : s.links.find?
        (fun l => decide (l.exercise_id = eid ∧ l.equipment_id = q)) = none) :
    unlink_equipment s eid q = (s, []) := by
  unfold unlink_equipment
  rw [h]

theorem unlink_equipment_spec (s : LinkState) (eid q : Nat) (l0 : ExerciseEquipmentLink)
    (hid : (s.links.map (fun l => l.id)).Nodup)
    (hpair : (s.links.map (fun l => (l.exercise_id, l.equipment_id))).Nodup)
    (hfind : s.links.find?
        (fun l => decide (l.exercise_id = eid ∧ l.equipment_id = q)) = some l0) :
    unlink_equipment s eid q =
      ({ links := s.links.filter
           (fun l => decide (¬(l.exercise_id = eid ∧ l.equipment_id = q))),
         nextId := s.nextId },
       [LinkOp.unlink eid q]) := by
  have hmem := List.mem_of_find?_eq_some hfind
  have hp0 := List.find?_some hfind
  have hl0 : l0.exercise_id = eid ∧ l0.equipment_id = q := of_decide_eq_true hp0
  have hfe : s.links.filter (fun x => decide (x.id ≠ l0.id)) =
      s.links.filter (fun l => decide (¬(l.exercise_id = eid ∧ l.equipment_id = q))) := by
    apply List.filter_congr
    intro x hx
    have hinjPair := List.inj_on_of_nodup_map hpair
    have hinjId := List.inj_on_of_nodup_map hid
    by_cases hpx : x.exercise_id = eid ∧ x.equipment_id = q
    · have hxeq : x = l0 := by
        apply hinjPair hx hmem
        rw [hpx.1, hpx.2, hl0.1, hl0.2]
      simp only [hxeq]
      simp [hl0]
    · have hxid : x.id ≠ l0.id := by
        intro hEq
        exact hpx (by rw [hinjId hx hmem hEq]; exact hl0)
      simp [hpx, hxid]
  unfold unlink_equipment
  rw [hfind]
  dsimp only
  rw [hfe]

theorem link_equipment_exists (s : LinkState) (eid q : Nat)
    (h : ∃ l ∈ s.links, l.exercise_id = eid ∧ l.equipment_id = q) :
    link_equipment s eid q = (s, []) := by
  obtain ⟨l, hl, hprop⟩ := h
  unfold link_equipment
  rw [if_pos (List.any_eq_true.mpr ⟨l, hl, decide_eq_true hprop⟩)]

theorem link_equipment_not_exists (s : LinkState) (eid q : Nat)
    (h : ¬ ∃ l ∈ s.links, l.exercise_id = eid ∧ l.equipment_id = q) :
    link_equipment s eid q =
      ({ links := s.links ++
           [{ id := s.nextId, exercise_id := eid, equipment_id := q }],
         nextId := s.nextId + 1 },
       [LinkOp.link eid q]) := by
  unfold link_equipment
  rw [if_neg]
  intro hany
  obtain ⟨l, hl, hp⟩ := List.any_eq_true.mp hany
  exact h ⟨l, hl, of_decide_eq_true hp⟩

theorem removeLinksAux_spec (eid : Nat) (des : List Nat) :
    ∀ (cur : List Nat) (s : LinkState) (ops : List LinkOp),
      (s.links.map (fun l => l.id)).Nodup →
      (s.links.map (fun l => (l.exercise_id, l.equipment_id))).Nodup →
      cur.Nodup →
      (∀ q ∈ cur, ∃ l ∈ s.links, l.exercise_id = eid ∧ l.equipment_id = q) →
      (removeLinksAux eid des s ops cur).1.links =
          s.links.filter (fun l =>
            decide (¬(l.exercise_id = eid ∧ l.equipment_id ∈ cur ∧
              ¬ l.equipment_id ∈ des))) ∧
      (removeLinksAux eid des s ops cur).1.nextId = s.nextId ∧
      (removeLinksAux eid des s ops cur).2 =
          ops ++ (cur.filter (fun q => !des.contains q)).map
            (fun q => LinkOp.unlink eid q) := by
  intro cur
  induction cur with
  | nil =>
      intro s ops hid hpair hnd hmem
      refine ⟨by simp [removeLinksAux], rfl, by simp [removeLinksAux]⟩
  | cons q1 rest ih =>
      intro s ops hid hpair hnd hmem
      by_cases hq1 : q1 ∈ des
      · have hq1c : des.contains q1 = true := by simpa using hq1
        rw [removeLinksAux, if_pos hq1c]
        obtain ⟨g1, g2, g3⟩ := ih s ops hid hpair hnd.of_cons
          (fun q hq => hmem q (List.mem_cons_of_mem _ hq))
        refine ⟨?_, g2, ?_⟩
        · rw [g1]
          apply List.filter_congr
          intro l hl
          apply decide_eq_decide.mpr
          constructor
          · intro hK hc
            rcases List.mem_cons.mp hc.2.1 with hEq | hMem
            · exact hc.2.2 (hEq ▸ hq1)
            · exact hK ⟨hc.1, hMem, hc.2.2⟩
          · intro hK hc
            exact hK ⟨hc.1, List.mem_cons_of_mem _ hc.2.1, hc.2.2⟩
        · rw [g3, List.filter_cons]
          simp [hq1]
      · have hq1c : des.contains q1 = false := by simpa using hq1
        have hfind : (s.links.find?
            (fun l => decide (l.exercise_id = eid ∧ l.equipment_id = q1))).isSome := by
          rw [List.find?_isSome]
          obtain ⟨l, hl, hprop⟩ := hmem q1 (List.mem_cons_self q1 rest)
          exact ⟨l, hl, decide_eq_true hprop⟩
        obtain ⟨l0, hl0⟩ := Option.isSome_iff_exists.mp hfind
        have hstep := unlink_equipment_spec s eid q1 l0 hid hpair hl0
        rw [removeLinksAux, if_neg (by simp [hq1]), hstep]
        have hsub : List.Sublist (s.links.filter
            (fun l => decide (¬(l.exercise_id = eid ∧ l.equipment_id = q1))))
            s.links := List.filter_sublist s.links
        have hid1 := hid.sublist (hsub.map (fun l => l.id))
        have hpair1 := hpair.sublist (hsub.map (fun l => (l.exercise_id, l.equipment_id)))
        have hmem1 : ∀ q ∈ rest,
            ∃ l ∈ s.links.filter
              (fun l => decide (¬(l.exercise_id = eid ∧ l.equipment_id = q1))),
              l.exercise_id = eid ∧ l.equipment_id = q := by
          intro q hq
          obtain ⟨l, hl, hprop⟩ := hmem q (List.mem_cons_of_mem _ hq)
          have hqne : q ≠ q1 := by
            intro hEq
            exact (List.nodup_cons.mp hnd).1 (hEq ▸ hq)
          refine ⟨l, List.mem_filter.mpr ⟨hl, ?_⟩, hprop⟩
          rw [decide_eq_true_eq]
          intro hcontra
          exact hqne (hprop.2 ▸ hcontra.2)
        obtain ⟨g1, g2, g3⟩ := ih
          { links := s.links.filter
              (fun l => decide (¬(l.exercise_id = eid ∧ l.equipment_id = q1))),
            nextId := s.nextId }
          (ops ++ [LinkOp.unlink eid q1]) hid1 hpair1 hnd.of_cons hmem1
        refine ⟨?_, g2, ?_⟩
        · rw [g1, List.filter_filter]
          apply List.filter_congr
          intro l hl
          rw [← Bool.decide_and]
          apply decide_eq_decide.mpr
          constructor
          · intro hK hc
            rcases List.mem_cons.mp hc.2.1 with hEq | hMem
            · exact hK.2 ⟨hc.1, hEq⟩
            · exact hK.1 ⟨hc.1, hMem, hc.2.2⟩
          · intro hK
            constructor
            · intro hc
              exact hK ⟨hc.1, List.mem_cons_of_mem _ hc.2.1, hc.2.2⟩
            · intro hc
              refine hK ⟨hc.1, ?_, ?_⟩
              · rw [hc.2]
                exact List.mem_cons_self q1 rest
              · rw [hc.2]
                exact hq1
        · rw [g3, List.filter_cons]
          simp [hq1]

theorem addLinksAux_spec (eid : Nat) (cur : List Nat) :
    ∀ (qs : List Nat) (s : LinkState) (ops : List LinkOp) (added : List Nat),
      (∀ q, q ∉ cur →
        ((∃ l ∈ s.links, l.exercise_id = eid ∧ l.equipment_id = q) ↔ q ∈ added)) →
      (∀ q, (addLinksAux eid cur s ops qs).2.count (LinkOp.link eid q) =
          ops.count (LinkOp.link eid q) +
            (if q ∈ qs ∧ q ∉ cur ∧ q ∉ added then 1 else 0)) ∧
      (∀ q, (∃ l ∈ (addLinksAux eid cur s ops qs).1.links,
              l.exercise_id = eid ∧ l.equipment_id = q) ↔
          ((∃ l ∈ s.links, l.exercise_id = eid ∧ l.equipment_id = q) ∨
            (q ∈ qs ∧ q ∉ cur))) ∧
      (∀ q, (addLinksAux eid cur s ops qs).2.count (LinkOp.unlink eid q) =
          ops.count (LinkOp.unlink eid q)) := by
  intro qs
  induction qs with
  | nil =>
      intro s ops added hinv
      refine ⟨fun q => by simp [addLinksAux], fun q => by simp [addLinksAux],
        fun q => by simp [addLinksAux]⟩
  | cons q1 rest ih =>
      intro s ops added hinv
      by_cases hc : q1 ∈ cur
      · have hcb : cur.contains q1 = true := by simpa using hc
        rw [addLinksAux, if_pos hcb]
        obtain ⟨g1, g2, g3⟩ := ih s ops added hinv
        refine ⟨?_, ?_, g3⟩
        · intro q
          rw [g1 q]
          by_cases hq : q = q1
          · subst hq
            simp [hc]
          · simp [List.mem_cons, hq]
        · intro q
          rw [g2 q]
          by_cases hq : q = q1
          · subst hq
            simp [hc]
          · simp [List.mem_cons, hq]
      · have hcb : cur.contains q1 = false := by simpa using hc
        rw [addLinksAux, if_neg (by simp [hc])]
        by_cases hex : ∃ l ∈ s.links, l.exercise_id = eid ∧ l.equipment_id = q1
        · have hq1added : q1 ∈ added := (hinv q1 hc).mp hex
          rw [link_equipment_exists s eid q1 hex]
          obtain ⟨g1, g2, g3⟩ := ih s (ops ++ []) added hinv
          refine ⟨?_, ?_, ?_⟩
          · intro q
            rw [g1 q]
            by_cases hq : q = q1
            · subst hq
              simp [hq1added]
            · simp [List.mem_cons, hq]
          · intro q
            rw [g2 q]
            by_cases hq : q = q1
            · subst hq
              simp [hex]
            · simp [List.mem_cons, hq]
          · intro q
            rw [g3 q]
            simp
        · have hq1added : q1 ∉ added := fun hmemq => hex ((hinv q1 hc).mpr hmemq)
          rw [link_equipment_not_exists s eid q1 hex]
          have hinv1 : ∀ q, q ∉ cur →
              ((∃ l ∈ s.links ++
                  [{ id := s.nextId, exercise_id := eid, equipment_id := q1 }],
                  l.exercise_id = eid ∧ l.equipment_id = q) ↔ q ∈ added ++ [q1]) := by
            intro q hq
            rw [List.mem_append, List.mem_singleton]
            constructor
            · rintro ⟨l, hl, hprop⟩
              rcases List.mem_append.mp hl with hin | hnew
              · exact Or.inl ((hinv q hq).mp ⟨l, hin, hprop⟩)
              · rw [List.mem_singleton.mp hnew] at hprop
                exact Or.inr hprop.2.symm
            · rintro (hin | hEq)
              · obtain ⟨l, hl, hprop⟩ := (hinv q hq).mpr hin
                exact ⟨l, List.mem_append_left _ hl, hprop⟩
              · refine ⟨{ id := s.nextId, exercise_id := eid, equipment_id := q1 },
                  List.mem_append_right _ (List.mem_singleton_self _), rfl, hEq.symm⟩
          obtain ⟨g1, g2, g3⟩ := ih
            { links := s.links ++
                [{ id := s.nextId, exercise_id := eid, equipment_id := q1 }],
              nextId := s.nextId + 1 }
            (ops ++ [LinkOp.link eid q1]) (added ++ [q1]) hinv1
          refine ⟨?_, ?_, ?_⟩
          · intro q
            rw [g1 q, List.count_append]
            by_cases hq : q = q1
            · subst hq
              have hone : [LinkOp.link eid q].count (LinkOp.link eid q) = 1 := by
                simp
              rw [hone]
              simp [hc, hq1added, List.mem_append]
            · have hzero : [LinkOp.link eid q1].count (LinkOp.link eid q) = 0 := by
                apply List.count_eq_zero.mpr
                rw [List.mem_singleton]
                intro hEq
                injection hEq with h1 h2
                exact hq h2
              rw [hzero]
              simp [List.mem_cons, hq, List.mem_append]
          · intro q
            have hsplit : (∃ l ∈ s.links ++
                [{ id := s.nextId, exercise_id := eid, equipment_id := q1 }],
                l.exercise_id = eid ∧ l.equipment_id = q) ↔
                ((∃ l ∈ s.links, l.exercise_id = eid ∧ l.equipment_id = q) ∨
                  q = q1) := by
              constructor
              · rintro ⟨l, hl, hprop⟩
                rcases List.mem_append.mp hl with hin | hnew
                · exact Or.inl ⟨l, hin, hprop⟩
                · rw [List.mem_singleton.mp hnew] at hprop
                  exact Or.inr hprop.2.symm
              · rintro (⟨l, hl, hprop⟩ | hEq)
                · exact ⟨l, List.mem_append_left _ hl, hprop⟩
                · exact ⟨{ id := s.nextId, exercise_id := eid, equipment_id := q1 },
                    List.mem_append_right _ (List.mem_singleton_self _), rfl, hEq.symm⟩
            rw [g2 q, hsplit]
            constructor
            · rintro ((hA | hEq) | ⟨hrest, hncur⟩)
              · exact Or.inl hA
              · refine Or.inr ⟨?_, ?_⟩
                · rw [hEq]
                  exact List.mem_cons_self q1 rest
                · rw [hEq]
                  exact hc
              · exact Or.inr ⟨List.mem_cons_of_mem _ hrest, hncur⟩
            · rintro (hA | ⟨hmemc, hncur⟩)
              · exact Or.inl (Or.inl hA)
              · rcases List.mem_cons.mp hmemc with hEq | hrest
                · exact Or.inl (Or.inr hEq)
                · exact Or.inr ⟨hrest, hncur⟩
          · intro q
            rw [g3 q, List.count_append]
            have hzero : [LinkOp.link eid q1].count (LinkOp.unlink eid q) = 0 := by
              apply List.count_eq_zero.mpr
              rw [List.mem_singleton]
              intro hEq
              cases hEq
            rw [hzero]
            simp

theorem removeLinksAux_noop (eid : Nat) (des : List Nat) :
    ∀ (cur : List Nat) (s : LinkState) (ops : List LinkOp),
      (∀ q ∈ cur, q ∈ des) → removeLinksAux eid des s ops cur = (s, ops) := by
  intro cur
  induction cur with
  | nil =>
      intro s ops h
      rfl
  | cons q1 rest ih =>
      intro s ops h
      rw [removeLinksAux, if_pos (by simpa using h q1 (List.mem_cons_self q1 rest))]
      exact ih s ops (fun q hq => h q (List.mem_cons_of_mem _ hq))

theorem addLinksAux_noop (eid : Nat) (cur : List Nat) :
    ∀ (qs : List Nat) (s : LinkState) (ops : List LinkOp),
      (∀ q ∈ qs, q ∈ cur) → addLinksAux eid cur s ops qs = (s, ops) := by
  intro qs
  induction qs with
  | nil =>
      intro s ops h
      rfl
  | cons q1 rest ih =>
      intro s ops h
      rw [addLinksAux, if_pos (by simpa using h q1 (List.mem_cons_self q1 rest))]
      exact ih s ops (fun q hq => h q (List.mem_cons_of_mem _ hq))

/-- C9: `set_equipment_for_exercise` issues exactly one unlink write for each
currently linked equipment id missing from the desired list, exactly one link
write for each desired id not currently linked, and no write at all for ids in
both sets; afterwards the linked set equals the desired set, and running it
again with the same list issues no writes.  The store is assumed well-formed
(distinct primary keys; at most one link row per (exercise, equipment) pair,
which `link_equipment` itself maintains). -/
theorem C9_set_equipment_symmetric_difference (s : LinkState) (eid : Nat)
    (des : List Nat)
    (hid : (s.links.map (fun l => l.id)).Nodup)
    (hpair : (s.links.map (fun l => (l.exercise_id, l.equipment_id))).Nodup) :
    (∀ q ∈ currentEquipmentIds s.links eid, q ∉ des →
        (set_equipment_for_exercise s eid des).2.count (LinkOp.unlink eid q) = 1) ∧
    (∀ q ∈ des, q ∉ currentEquipmentIds s.links eid →
        (set_equipment_for_exercise s eid des).2.count (LinkOp.link eid q) = 1) ∧
    (∀ q ∈ currentEquipmentIds s.links eid, q ∈ des →
        (set_equipment_for_exercise s eid des).2.count (LinkOp.unlink eid q) = 0 ∧
        (set_equipment_for_exercise s eid des).2.count (LinkOp.link eid q) = 0) ∧
    (currentEquipmentIds (set_equipment_for_exercise s eid des).1.links eid).toFinset
      = des.toFinset ∧
    (set_equipment_for_exercise (set_equipment_for_exercise s eid des).1 eid des).2
      = [] := by
  have hcurnd := nodup_currentEquipmentIds s.links eid
  have hcurmem : ∀ q ∈ currentEquipmentIds s.links eid,
      ∃ l ∈ s.links, l.exercise_id = eid ∧ l.equipment_id = q :=
    fun q hq => (mem_currentEquipmentIds s.links eid q).mp hq
  obtain ⟨r1, r2, r3⟩ := removeLinksAux_spec eid des (currentEquipmentIds s.links eid)
    s [] hid hpair hcurnd hcurmem
  have hinv0 : ∀ q, q ∉ currentEquipmentIds s.links eid →
      ((∃ l ∈ (removeLinksAux eid des s [] (currentEquipmentIds s.links eid)).1.links,
          l.exercise_id = eid ∧ l.equipment_id = q) ↔ q ∈ ([] : List Nat)) := by
    intro q hq
    simp only [List.not_mem_nil, iff_false]
    rw [r1]
    rintro ⟨l, hl, hprop⟩
    exact hq ((mem_currentEquipmentIds s.links eid q).mpr
      ⟨l, (List.mem_filter.mp hl).1, hprop⟩)
  obtain ⟨a1, a2, a3⟩ := addLinksAux_spec eid (currentEquipmentIds s.links eid) des
    (removeLinksAux eid des s [] (currentEquipmentIds s.links eid)).1
    (removeLinksAux eid des s [] (currentEquipmentIds s.links eid)).2 [] hinv0
  have hfinal : set_equipment_for_exercise s eid des =
      addLinksAux eid (currentEquipmentIds s.links eid)
        (removeLinksAux eid des s [] (currentEquipmentIds s.links eid)).1
        (removeLinksAux eid des s [] (currentEquipmentIds s.links eid)).2 des := rfl
  have hcount_unlink : ∀ q,
      (removeLinksAux eid des s [] (currentEquipmentIds s.links eid)).2.count
          (LinkOp.unlink eid q) =
        ((currentEquipmentIds s.links eid).filter (fun x => !des.contains x)).count q := by
    intro q
    rw [r3]
    simp only [List.nil_append]
    exact List.count_map_of_injective _ (fun x => LinkOp.unlink eid x)
      (fun a b hab => by injection hab) q
  have hcount_link0 : ∀ q,
      (removeLinksAux eid des s [] (currentEquipmentIds s.links eid)).2.count
        (LinkOp.link eid q) = 0 := by
    intro q
    rw [r3]
    apply List.count_eq_zero.mpr
    simp only [List.nil_append, List.mem_map]
    rintro ⟨x, hx, hEq⟩
    simp at hEq
  have hs1pair : ∀ q,
      (∃ l ∈ (removeLinksAux eid des s [] (currentEquipmentIds s.links eid)).1.links,
        l.exercise_id = eid ∧ l.equipment_id = q) ↔
      (q ∈ currentEquipmentIds s.links eid ∧ q ∈ des) := by
    intro q
    rw [r1]
    constructor
    · rintro ⟨l, hl, hprop⟩
      obtain ⟨hl0, hK⟩ := List.mem_filter.mp hl
      have hqcur : q ∈ currentEquipmentIds s.links eid :=
        (mem_currentEquipmentIds s.links eid q).mpr ⟨l, hl0, hprop⟩
      refine ⟨hqcur, ?_⟩
      by_contra hnd
      exact (of_decide_eq_true hK)
        ⟨hprop.1, by rw [hprop.2]; exact hqcur, by rw [hprop.2]; exact hnd⟩
    · rintro ⟨hqc, hqd⟩
      obtain ⟨l, hl, hprop⟩ := hcurmem q hqc
      refine ⟨l, List.mem_filter.mpr ⟨hl, decide_eq_true ?_⟩, hprop⟩
      intro hK
      exact hK.2.2 (by rw [hprop.2]; exact hqd)
  have hmemfinal : ∀ q,
      q ∈ currentEquipmentIds (set_equipment_for_exercise s eid des).1.links eid ↔
        q ∈ des := by
    intro q
    rw [mem_currentEquipmentIds, hfinal, a2 q, hs1pair q]
    by_cases hqc : q ∈ currentEquipmentIds s.links eid <;>
      by_cases hqd : q ∈ des <;> simp [hqc, hqd]
  refine ⟨?_, ?_, ?_, ?_, ?_⟩
  · intro q hq hqd
    rw [hfinal, a3 q, hcount_unlink q]
    apply List.count_eq_one_of_mem (hcurnd.filter _)
    exact List.mem_filter.mpr ⟨hq, by simpa using hqd⟩
  · intro q hq hqc
    rw [hfinal, a1 q, hcount_link0 q]
    simp [hq, hqc]
  · intro q hq hqd
    constructor
    · rw [hfinal, a3 q, hcount_unlink q]
      apply List.count_eq_zero.mpr
      intro hmf
      obtain ⟨hq1, hq2⟩ := List.mem_filter.mp hmf
      simp at hq2
      exact hq2 hqd
    · rw [hfinal, a1 q, hcount_link0 q]
      simp [hq]
  · apply Finset.ext
    intro q
    rw [List.mem_toFinset, List.mem_toFinset]
    exact hmemfinal q
  · have hnoopR := removeLinksAux_noop eid des
      (currentEquipmentIds (set_equipment_for_exercise s eid des).1.links eid)
      (set_equipment_for_exercise s eid des).1 []
      (fun q hq => (hmemfinal q).mp hq)
    have hnoopA := addLinksAux_noop eid
      (currentEquipmentIds (set_equipment_for_exercise s eid des).1.links eid) des
      (set_equipment_for_exercise s eid des).1 []
      (fun q hq => (hmemfinal q).mpr hq)
    show (addLinksAux eid
      (currentEquipmentIds (set_equipment_for_exercise s eid des).1.links eid)
      (removeLinksAux eid des (set_equipment_for_exercise s eid des).1 []
        (currentEquipmentIds (set_equipment_for_exercise s eid des).1.links eid)).1
      (removeLinksAux eid des (set_equipment_for_exercise s eid des).1 []
        (currentEquipmentIds (set_equipment_for_exercise s eid des).1.links eid)).2
      des).2 = []
    rw [hnoopR]
    exact congrArg Prod.snd hnoopA

/-- Witness for C9: links (4,5) and (4,6) exist; setting exercise 4's
equipment to [6, 7] unlinks 5 once, links 7 once, touches 6 not at all, leaves
the linked set {6, 7}, and a second identical call performs no writes. -/
theorem C9_set_equipment_symmetric_difference_witness :
    (set_equipment_for_exercise linksC9 4 [6, 7]).2.count (LinkOp.unlink 4 5) = 1 ∧
    (set_equipment_for_exercise linksC9 4 [6, 7]).2.count (LinkOp.link 4 7) = 1 ∧
    (set_equipment_for_exercise linksC9 4 [6, 7]).2.count (LinkOp.unlink 4 6) = 0 ∧
    (set_equipment_for_exercise linksC9 4 [6, 7]).2.count (LinkOp.link 4 6) = 0 ∧
    (currentEquipmentIds (set_equipment_for_exercise linksC9 4 [6, 7]).1.links 4).toFinset
      = ([6, 7] : List Nat).toFinset ∧
    (set_equipment_for_exercise (set_equipment_for_exercise linksC9 4 [6, 7]).1
      4 [6, 7]).2 = [] :=
  have h := C9_set_equipment_symmetric_difference linksC9 4 [6, 7]
    (by decide) (by decide)
  ⟨h.1 5 (by decide) (by decide),
   h.2.1 7 (by decide) (by decide),
   (h.2.2.1 6 (by decide) (by decide)).1,
   (h.2.2.1 6 (by decide) (by decide)).2,
   h.2.2.2.1,
   h.2.2.2.2⟩

theorem dget_dinsert_self {α : Type} (k : String) (v : α) (m : List (String × α)) :
    dget (dinsert k v m) k = some v := by
  simp [dget, dinsert]

theorem find?_filter_of_imp {α : Type} (p q : α → Bool)
    (h : ∀ x, p x = true → q x = true) :
    ∀ (l : List α), (l.filter q).find? p = l.find? p := by
  intro l
  induction l with
  | nil => rfl
  | cons a t ih =>
      by_cases hq : q a = true
      · rw [List.filter_cons_of_pos hq]
        by_cases hp : p a = true
        · rw [List.find?_cons_of_pos _ hp, List.find?_cons_of_pos _ hp]
        · rw [List.find?_cons_of_neg _ (by simpa using hp),
            List.find?_cons_of_neg _ (by simpa using hp), ih]
      · have hp : ¬ p a = true := fun hpa => hq (h a hpa)
        rw [List.filter_cons_of_neg (by simpa using hq), ih,
          List.find?_cons_of_neg _ (by simpa using hp)]

theorem dget_dinsert_ne {α : Type} (k k2 : String) (v : α) (m : List (String × α))
    (h : k2 ≠ k) : dget (dinsert k v m) k2 = dget m k2 := by
  unfold dget dinsert
  rw [List.find?_cons_of_neg _ (by simpa using Ne.symm h)]
  rw [find?_filter_of_imp _ _ ?_ m]
  intro x hx
  rw [decide_eq_true_eq] at hx
  rw [decide_eq_true_eq]
  rw [hx]
  exact h

theorem dget_foldl_dinsert {α β : Type} (key : α → String) (view : α → β) :
    ∀ (l : List α) (m : List (String × β)) (κ : String),
      dget (l.foldl (fun acc e => dinsert (key e) (view e) acc) m) κ =
        match (lastByKey key κ l) with
        | some e => some (view e)
        | none => dget m κ := by
  intro l
  induction l with
  | nil =>
      intro m κ
      simp [lastByKey]
  | cons a t ih =>
      intro m κ
      rw [List.foldl_cons, ih]
      have hrev : (a :: t).reverse = t.reverse ++ [a] := by simp
      by_cases hlast : (lastByKey key κ t).isSome
      · obtain ⟨e, he⟩ := Option.isSome_iff_exists.mp hlast
        have : lastByKey key κ (a :: t) = some e := by
          unfold lastByKey at he ⊢
          rw [hrev, List.find?_append, he]
          rfl
        rw [he, this]
      · have hnone : lastByKey key κ t = none := Option.not_isSome_iff_eq_none.mp hlast
        rw [hnone]
        have hstep : lastByKey key κ (a :: t) =
            if key a = κ then some a else none := by
          unfold lastByKey at hnone ⊢
          rw [hrev, List.find?_append, hnone]
          by_cases hka : key a = κ
          · simp [hka]
          · simp [hka]
        rw [hstep]
        by_cases hka : key a = κ
        · rw [if_pos hka, ← hka, dget_dinsert_self]
        · rw [if_neg hka, dget_dinsert_ne _ _ _ _ (fun hEq => hka hEq.symm)]

theorem dget_buildEquipmentMap (store : List Equipment) (κ : String) :
    dget (buildEquipmentMap store) κ =
      (lastByKey (fun e => plower e.name) κ store).map Equipment.view := by
  unfold buildEquipmentMap
  rw [dget_foldl_dinsert (fun e => plower e.name) Equipment.view store [] κ]
  cases lastByKey (fun e => plower e.name) κ store with
  | none => rfl
  | some e => rfl

theorem dget_buildExerciseMap (store : List Exercise) (κ : String) :
    dget (buildExerciseMap store) κ =
      lastByKey (fun e => plower e.name) κ store := by
  unfold buildExerciseMap
  rw [dget_foldl_dinsert (fun e => plower e.name) (fun e => e) store [] κ]
  cases lastByKey (fun e => plower e.name) κ store with
  | none => rfl
  | some e => rfl

theorem lastByKey_append_single {α : Type} (key : α → String) (κ : String)
    (l : List α) (a : α) :
    lastByKey key κ (l ++ [a]) =
      if key a = κ then some a else lastByKey key κ l := by
  unfold lastByKey
  rw [List.reverse_append]
  by_cases hka : key a = κ
  · rw [if_pos hka]
    simp [hka]
  · rw [if_neg hka]
    simp [hka]

theorem lastByKey_map {α : Type} (key : α → String) (κ : String) (f : α → α) :
    ∀ (l : List α), (∀ x ∈ l, key (f x) = key x) →
      lastByKey key κ (l.map f) = (lastByKey key κ l).map f := by
  have haux : ∀ (l : List α), (∀ x ∈ l, key (f x) = key x) →
      (l.map f).find? (fun e => decide (key e = κ)) =
        (l.find? (fun e => decide (key e = κ))).map f := by
    intro l
    induction l with
    | nil => intro h; rfl
    | cons a t ih =>
        intro h
        rw [List.map_cons]
        by_cases hka : key a = κ
        · rw [List.find?_cons_of_pos _ (by simp [h a (List.mem_cons_self a t), hka]),
            List.find?_cons_of_pos _ (by simp [hka])]
          rfl
        · rw [List.find?_cons_of_neg _ (by simp [h a (List.mem_cons_self a t), hka]),
            List.find?_cons_of_neg _ (by simp [hka])]
          exact ih (fun x hx => h x (List.mem_cons_of_mem _ hx))
  intro l h
  unfold lastByKey
  rw [← List.map_reverse]
  exact haux l.reverse (fun x hx => h x (List.mem_reverse.mp hx))

theorem lastByKey_none_iff {α : Type} (key : α → String) (κ : String) (l : List α) :
    lastByKey key κ l = none ↔ ∀ e ∈ l, key e ≠ κ := by
  unfold lastByKey
  rw [List.find?_eq_none]
  constructor
  · intro h e he
    have := h e (List.mem_reverse.mpr he)
    simpa using this
  · intro h e he
    simpa using h e (List.mem_reverse.mp he)

theorem lastByKey_mem {α : Type} (key : α → String) (κ : String) (l : List α)
    (e : α) (h : lastByKey key κ l = some e) : e ∈ l ∧ key e = κ := by
  unfold lastByKey at h
  have hm := List.mem_of_find?_eq_some h
  have hp := List.find?_some h
  exact ⟨List.mem_reverse.mp hm, of_decide_eq_true hp⟩

theorem lastByKey_self {α : Type} (key : α → String) :
    ∀ (l : List α), (l.map key).Nodup → ∀ e ∈ l, lastByKey key (key e) l = some e := by
  have haux : ∀ (l : List α), (l.map key).Nodup → ∀ e ∈ l,
      l.find? (fun x => decide (key x = key e)) = some e := by
    intro l
    induction l with
    | nil =>
        intro hnd e he
        cases he
    | cons a t ih =>
        intro hnd e he
        rcases List.mem_cons.mp he with hEq | hmemt
        · rw [← hEq]
          exact List.find?_cons_of_pos _ (by simp)
        · have hka : key a ≠ key e := by
            intro hcontra
            have : key e ∈ t.map key := List.mem_map.mpr ⟨e, hmemt, rfl⟩
            rw [← hcontra] at this
            exact (List.nodup_cons.mp (by simpa using hnd)).1 this
          rw [List.find?_cons_of_neg _ (by simpa using hka)]
          exact ih (by simpa using (List.nodup_cons.mp (by simpa using hnd)).2) e hmemt
  intro l hnd e he
  unfold lastByKey
  apply haux l.reverse _ e (List.mem_reverse.mpr he)
  rw [List.map_reverse]
  exact (List.nodup_reverse.mpr hnd)

theorem plower_eq_nil_iff (s : String) : plower s = String.mk [] ↔ s = String.mk [] := by
  unfold plower
  constructor
  · intro h
    have hdata : s.data.map Char.toLower = [] := congrArg String.data h
    cases s with
    | mk cs =>
        cases cs with
        | nil => rfl
        | cons c t =>
            simp at hdata
  · intro h
    rw [h]
    rfl

theorem import_equipment_row_export_skip (st : EqImportState) (n : Nat) (e : Equipment)
    (hstrip : pstrip e.name = e.name ∨ pstrip e.name = String.mk [])
    (hdesc : ∀ d, e.description = some d → d ≠ String.mk [] ∧ pstrip d = d)
    (hmap : dget st.emap (plower e.name) = some e.view) :
    import_equipment_row [] st n (exportEquipmentRow e) =
      { st with skipped := st.skipped + 1 } := by
  unfold import_equipment_row exportEquipmentRow
  dsimp only [Option.getD_some]
  by_cases hb : pstrip e.name = String.mk []
  · rw [if_pos hb]
  · rw [if_neg hb]
    rcases hstrip with hs | hs
    · have hd : parseDescription (some (e.description.getD (String.mk []))) =
          e.description := by
        cases hdd : e.description with
        | none => decide
        | some d =>
            obtain ⟨hne, hstr⟩ := hdesc d hdd
            simp [parseDescription, hstr, hne]
      have hen : parseEnabledEquip (some (if e.enabled then litTrue else litFalse)) =
          e.enabled := by
        cases e.enabled <;> decide
      rw [hs, hmap]
      simp [Equipment.view, hd, hen]
    · exact absurd hs hb

theorem import_equipment_rows_export (store : List Equipment)
    (hnd : (store.map (fun e => plower e.name)).Nodup)
    (hdesc : ∀ e ∈ store, ∀ d, e.description = some d → d ≠ String.mk [] ∧ pstrip d = d)
    (hstrip : ∀ e ∈ store, pstrip e.name = e.name ∨ pstrip e.name = String.mk []) :
    ∀ (suffix : List Equipment) (st : EqImportState) (n : Nat),
      st.emap = buildEquipmentMap store →
      (∀ e ∈ suffix, e ∈ store) →
      import_equipment_rows st n (suffix.map (fun e => (exportEquipmentRow e, []))) =
        { st with skipped := st.skipped + suffix.length } := by
  intro suffix
  induction suffix with
  | nil =>
      intro st n hm hsub
      simp [import_equipment_rows]
  | cons e rest ih =>
      intro st n hm hsub
      have hestore := hsub e (List.mem_cons_self e rest)
      have hmape : dget st.emap (plower e.name) = some e.view := by
        rw [hm, dget_buildEquipmentMap]
        rw [lastByKey_self (fun x => plower x.name) store hnd e hestore]
        rfl
      have hrow := import_equipment_row_export_skip st n e (hstrip e hestore)
        (hdesc e hestore) hmape
      rw [List.map_cons, import_equipment_rows, hrow]
      rw [ih { st with skipped := st.skipped + 1 } (n + 1) (by simpa using hm)
        (fun x hx => hsub x (List.mem_cons_of_mem _ hx))]
      cases st
      simp
      omega

/-- C10 amended: for an equipment store whose names are pairwise distinct
case-insensitively and carry no leading/trailing whitespace (or strip to
blank, in which case the exported row is skipped outright), and whose
descriptions are None or non-empty whitespace-trimmed strings, importing the
CSV produced by the export against the unchanged store performs no writes:
created = 0, updated = 0, no errors, every row skipped, store unchanged.
(The counterexample shows the whitespace condition on names, absent from the
original claim, is necessary.) -/
theorem C10_amended_export_import_roundtrip (store : List Equipment)
    (hnd : (store.map (fun e => plower e.name)).Nodup)
    (hstrip : ∀ e ∈ store, pstrip e.name = e.name ∨ pstrip e.name = String.mk [])
    (hdesc : ∀ e ∈ store, ∀ d, e.description = some d →
      d ≠ String.mk [] ∧ pstrip d = d) :
    (import_equipment store (export_equipment store)).created = 0 ∧
    (import_equipment store (export_equipment store)).updated = 0 ∧
    (import_equipment store (export_equipment store)).errors = [] ∧
    (import_equipment store (export_equipment store)).skipped = store.length ∧
    (import_equipment store (export_equipment store)).store = store := by
  have h := import_equipment_rows_export store hnd hdesc hstrip store
    (initEqImportState store) 2 rfl (fun e he => he)
  have hrun : import_equipment store (export_equipment store) =
      { initEqImportState store with skipped := 0 + store.length } := by
    unfold import_equipment import_equipment_concurrent export_equipment
    rw [List.map_map]
    exact h
  rw [hrun]
  simp [initEqImportState]

/-- Witness for C10 amended: the two-element store Band (description present)
and rope (disabled) round-trips with both rows skipped. -/
theorem C10_amended_export_import_roundtrip_witness :
    (import_equipment [eqBand, eqRope] (export_equipment [eqBand, eqRope])).created = 0 ∧
    (import_equipment [eqBand, eqRope] (export_equipment [eqBand, eqRope])).updated = 0 ∧
    (import_equipment [eqBand, eqRope] (export_equipment [eqBand, eqRope])).errors = [] ∧
    (import_equipment [eqBand, eqRope] (export_equipment [eqBand, eqRope])).skipped = 2 ∧
    (import_equipment [eqBand, eqRope] (export_equipment [eqBand, eqRope])).store =
      [eqBand, eqRope] :=
  C10_amended_export_import_roundtrip [eqBand, eqRope] (by decide)
    (by decide) (by decide)

theorem find?_eq_none_of_any_eq_false {α : Type} (l : List α) (p : α → Bool)
    (h : l.any p = false) : l.find? p = none := by
  rw [List.find?_eq_none]
  intro x hx
  simp only [List.any_eq_false] at h
  exact h x hx

/-- C4 amended: in the equipment CSV import and in the wger exercise sync, a
succeeding CREATE registers the new record in the case-insensitive identity
index before the next row is processed (so later rows of the batch with the
same name, up to case, match it); the exercise CSV import never touches its
identity index, so a created record is not registered and a later row of the
batch with the same name attempts a second create — erroring on an exact
duplicate and creating a case-variant duplicate otherwise (see the
counterexample). -/
theorem C4_amended_in_batch_registration :
    (∀ (ins : List Equipment) (st : EqImportState) (rowNum : Nat) (r : CsvRow)
        (name : String),
        name = pstrip (r.name.getD (String.mk [])) →
        name ≠ String.mk [] →
        dget st.emap (plower name) = none →
        equipmentCreateInvalid name (parseDescription r.description) = false →
        (st.store ++ ins).any (fun (e : Equipment) => decide (e.name = name)) = false →
        dget (import_equipment_row ins st rowNum r).emap (plower name) =
          some { name := name, description := parseDescription r.description,
                 enabled := parseEnabledEquip r.enabled } ∧
        (import_equipment_row ins st rowNum r).created = st.created + 1) ∧
    (∀ (ins : List Exercise) (s : ExSyncState) (name : String) (pids sids : List Nat),
        dget s.exMap (plower name) = none →
        s.exStore.find? (fun (e : Exercise) => decide (e.name = name)) = none →
        exerciseCreateInvalid name pids = false →
        (s.exStore ++ ins).any (fun (e : Exercise) => decide (e.name = name)) = false →
        dget (sync_reconcile_exercise ins s name pids sids).exMap (plower name) =
          some { id := s.nextExId, name := name, primary_muscle_group_ids := pids,
                 secondary_muscle_group_ids := sids, enabled := true } ∧
        (sync_reconcile_exercise ins s name pids sids).created = s.created + 1) ∧
    (∀ (mgMap : List (String × Nat)) (st : ExImportState) (rowNum : Nat) (r : CsvRow),
        (import_exercises_row mgMap st rowNum r).emap = st.emap) := by
  refine ⟨?_, ?_, ?_⟩
  · intro ins st rowNum r name hname hne hmap hval hany
    unfold import_equipment_row
    rw [← hname]
    simp only [hmap, hval, hany, if_neg hne, Bool.false_eq_true, if_false]
    exact ⟨dget_dinsert_self _ _ _, trivial⟩
  · intro ins s name pids sids hmap hdb hval hany
    have hfind1 : (s.exStore ++ ins).find?
        (fun (e : Exercise) => decide (e.name = name)) = none :=
      find?_eq_none_of_any_eq_false _ _ hany
    have hfind2 : List.find? (fun (e : Exercise) => decide (e.name = name))
        ((s.exStore ++ ins) ++
          [{ id := s.nextExId, name := name, primary_muscle_group_ids := pids,
             secondary_muscle_group_ids := sids, enabled := true }]) =
        some { id := s.nextExId, name := name, primary_muscle_group_ids := pids,
               secondary_muscle_group_ids := sids, enabled := true } := by
      rw [List.find?_append, hfind1, Option.none_or, List.find?_cons_of_pos]
      exact decide_eq_true rfl
    unfold sync_reconcile_exercise
    simp only [hmap, hdb, hval, hany, Bool.false_eq_true, if_false]
    split
    · rename_i e he
      rw [hfind2] at he
      injection he with he
      rw [← he]
      exact ⟨dget_dinsert_self _ _ _, rfl⟩
    · rename_i he
      rw [hfind2] at he
      exact absurd he (by simp)
  · intro mgMap st rowNum r
    unfold import_exercises_row
    dsimp only
    repeat' split
    all_goals rfl

/-- Witness for C4 amended: the equipment row Band is registered under key
band right after its create; the sync candidate Press is registered under key
press right after its create; the exercise CSV import leaves its identity map
untouched when creating Foo. -/
theorem C4_amended_in_batch_registration_witness :
    dget (import_equipment_row [] (initEqImportState []) 2 c2Row1).emap
        (plower sBand) =
      some { name := sBand, description := parseDescription c2Row1.description,
             enabled := parseEnabledEquip c2Row1.enabled } ∧
    dget (sync_reconcile_exercise [] (initExSyncState [] [mgQuads] false)
        sPress [2] []).exMap (plower sPress) =
      some { id := (initExSyncState [] [mgQuads] false).nextExId, name := sPress,
             primary_muscle_group_ids := [2], secondary_muscle_group_ids := [],
             enabled := true } ∧
    (import_exercises_row (buildMgMapImport [mgChest]) (initExImportState [])
        2 rowFooUpper).emap = (initExImportState []).emap :=
  ⟨(C4_amended_in_batch_registration.1 [] (initEqImportState []) 2 c2Row1 sBand
      (by decide) (by decide) (by decide) (by decide) (by decide)).1,
   (C4_amended_in_batch_registration.2.1 [] (initExSyncState [] [mgQuads] false)
      sPress [2] [] (by decide) (by decide) (by decide) (by decide)).1,
   C4_amended_in_batch_registration.2.2 (buildMgMapImport [mgChest])
      (initExImportState []) 2 rowFooUpper⟩

theorem import_exercises_row_emap (mgMap : List (String × Nat))
    (st : ExImportState) (rowNum : Nat) (r : CsvRow) :
    (import_exercises_row mgMap st rowNum r).emap = st.emap := by
  unfold import_exercises_row
  dsimp only
  repeat' split
  all_goals rfl

theorem import_exercises_rows_emap (mgMap : List (String × Nat)) :
    ∀ (rows : List CsvRow) (st : ExImportState) (n : Nat),
      (import_exercises_rows mgMap st n rows).emap = st.emap := by
  intro rows
  induction rows with
  | nil => intro st n; rfl
  | cons r rest ih =>
      intro st n
      unfold import_exercises_rows
      rw [ih]
      exact import_exercises_row_emap mgMap st n r

theorem resolveIdsFrom_cons (mgMap : List (String × Nat)) (acc : List Nat)
    (nm : String) (t : List String) :
    resolveIdsFrom mgMap acc (nm :: t) =
      resolveIdsFrom mgMap
        (match dget mgMap (plower nm) with
         | none => acc
         | some i => if acc.contains i then acc else acc ++ [i]) t := by
  unfold resolveIdsFrom
  rw [List.foldl_cons]

theorem resolveImportIds_foldl_snd (mgMap : List (String × Nat)) (rowNum : Nat)
    (kind : String) :
    ∀ (names : List String) (accE : List String) (accI : List Nat),
      (names.foldl
        (fun acc nm =>
          match dget mgMap (plower nm) with
          | none => (acc.1 ++ [mgNotFoundMsg rowNum kind nm], acc.2)
          | some i => (acc.1, if acc.2.contains i then acc.2 else acc.2 ++ [i]))
        (accE, accI)).2 = resolveIdsFrom mgMap accI names := by
  intro names
  induction names with
  | nil => intro accE accI; rfl
  | cons nm t ih =>
      intro accE accI
      rw [List.foldl_cons, resolveIdsFrom_cons]
      cases hd : dget mgMap (plower nm) with
      | none =>
          simp only [hd]
          exact ih (accE ++ [mgNotFoundMsg rowNum kind nm]) accI
      | some i =>
          simp only [hd]
          exact ih accE (if accI.contains i then accI else accI ++ [i])

theorem resolveImportIds_snd (mgMap : List (String × Nat)) (rowNum : Nat)
    (kind : String) (names : List String) :
    (resolveImportIds mgMap rowNum kind names).2 = resolveIdsFrom mgMap [] names := by
  unfold resolveImportIds
  exact resolveImportIds_foldl_snd mgMap rowNum kind names [] []

theorem parse_exercise_row_shape (mgMap : List (String × Nat)) (n : Nat)
    (r : CsvRow) :
    (exRowRejected r = true ∧
        ∃ errs, parse_exercise_row mgMap n r = .rejected errs) ∨
    (exRowRejected r = false ∧
        ∃ errs, parse_exercise_row mgMap n r =
          .candidate errs (exRowName r) (exRowPids mgMap r) (exRowSids mgMap r)
            (exRowEnabled r)) := by
  unfold parse_exercise_row exRowRejected exRowPids exRowSids exRowEnabled
    exRowName exRowPrimaryText exRowSecondaryText
  dsimp only
  by_cases h1 : pstrip (r.name.getD (String.mk [])) = String.mk []
  · left
    refine ⟨by simp [h1], ?_⟩
    rw [if_pos h1]
    exact ⟨_, rfl⟩
  · rw [if_neg h1]
    by_cases h2 : pstrip (r.primary_muscle_groups.getD (String.mk [])) = String.mk []
    · left
      refine ⟨by simp [h1, h2], ?_⟩
      rw [if_pos h2]
      exact ⟨_, rfl⟩
    · rw [if_neg h2]
      by_cases h3 :
          splitNames (pstrip (r.primary_muscle_groups.getD (String.mk []))) = []
      · left
        refine ⟨by simp [h1, h2, h3], ?_⟩
        rw [if_pos h3]
        exact ⟨_, rfl⟩
      · right
        refine ⟨by simp [h1, h2, h3], ?_⟩
        rw [if_neg h3]
        refine ⟨(resolveImportIds mgMap n primaryLit
            (splitNames (pstrip (r.primary_muscle_groups.getD (String.mk []))))).1 ++
          (if pstrip (r.secondary_muscle_groups.getD (String.mk [])) = String.mk []
           then (([] : List String), ([] : List Nat))
           else resolveImportIds mgMap n secondaryLit
             (splitNames (pstrip (r.secondary_muscle_groups.getD (String.mk []))))).1,
          ?_⟩
        simp only [ExRowParse.candidate.injEq, and_true, true_and]
        refine ⟨resolveImportIds_snd mgMap n primaryLit _, ?_⟩
        by_cases h4 :
            pstrip (r.secondary_muscle_groups.getD (String.mk [])) = String.mk []
        · rw [if_pos h4, if_pos h4]
        · rw [if_neg h4, if_neg h4]
          exact resolveImportIds_snd mgMap n secondaryLit _

theorem exRowErrs_rejected (mgMap : List (String × Nat)) (old old2 : Option Exercise)
    (n : Nat) (r : CsvRow) (h : exRowRejected r = true) :
    exRowErrs mgMap old n r = exRowErrs mgMap old2 n r := by
  rcases parse_exercise_row_shape mgMap n r with ⟨_, errs, heq⟩ | ⟨hfalse, _⟩
  · unfold exRowErrs
    rw [heq]
  · rw [h] at hfalse
    cases hfalse

theorem exRowSettled_rejected (mgMap : List (String × Nat)) (old : Option Exercise)
    (r : CsvRow) (h : exRowRejected r = true) :
    exRowSettled mgMap old r = false := by
  unfold exRowSettled
  rw [if_pos h]

theorem eqRowErrs_blank (old : Option EquipmentView) (n : Nat) (r : CsvRow)
    (h : pstrip (r.name.getD (String.mk [])) = String.mk []) :
    eqRowErrs old n r = [] := by
  unfold eqRowErrs
  dsimp only
  rw [if_pos h]

theorem eqRowSettled_blank (old : Option EquipmentView) (r : CsvRow)
    (h : pstrip (r.name.getD (String.mk [])) = String.mk []) :
    eqRowSettled old r = true := by
  unfold eqRowSettled
  dsimp only
  rw [if_pos h]

theorem eqRow_expected (r : CsvRow) (old : Option EquipmentView) (n : Nat)
    (hnb : eqNonblank r = true) :
    eqRowErrs (eqExpected r old) n r = eqRowErrs old n r ∧
      eqRowSettled (eqExpected r old) r = eqRowSettled old r := by
  have hne : ¬ pstrip (r.name.getD (String.mk [])) = String.mk [] :=
    of_decide_eq_true hnb
  cases old with
  | some v => simp [eqExpected, eqRowErrs, eqRowSettled, hne]
  | none =>
      by_cases hv : equipmentCreateInvalid (pstrip (r.name.getD (String.mk [])))
          (parseDescription r.description) = true
      · have he : eqExpected r none = none := by
          unfold eqExpected
          dsimp only
          rw [if_pos hv]
        rw [he]
        exact ⟨rfl, rfl⟩
      · have hvf : equipmentCreateInvalid (pstrip (r.name.getD (String.mk [])))
            (parseDescription r.description) = false := Bool.eq_false_iff.mpr hv
        have he : eqExpected r none =
            some { name := pstrip (r.name.getD (String.mk [])),
                   description := parseDescription r.description,
                   enabled := parseEnabledEquip r.enabled } := by
          unfold eqExpected
          dsimp only
          rw [if_neg hv]
        rw [he]
        constructor
        · have h1 : eqRowErrs
              (some { name := pstrip (r.name.getD (String.mk [])),
                      description := parseDescription r.description,
                      enabled := parseEnabledEquip r.enabled }) n r = [] := by
            unfold eqRowErrs
            dsimp only
            rw [if_neg hne]
          have h2 : eqRowErrs none n r = [] := by
            unfold eqRowErrs
            dsimp only
            rw [if_neg hne, if_neg hv]
          rw [h1, h2]
        · have s1 : eqRowSettled
              (some { name := pstrip (r.name.getD (String.mk [])),
                      description := parseDescription r.description,
                      enabled := parseEnabledEquip r.enabled }) r = true := by
            unfold eqRowSettled
            dsimp only
            rw [if_neg hne]
          have s2 : eqRowSettled none r = true := by
            unfold eqRowSettled
            dsimp only
            rw [if_neg hne, hvf]
            rfl
          rw [s1, s2]

theorem EqSettledOld_expected (r : CsvRow) (old : Option EquipmentView) :
    EqSettledOld r (eqExpected r old) := by
  cases old with
  | some v => exact ⟨rfl, rfl⟩
  | none =>
      by_cases hv : equipmentCreateInvalid (pstrip (r.name.getD (String.mk [])))
          (parseDescription r.description) = true
      · unfold EqSettledOld eqExpected
        dsimp only
        rw [if_pos hv]
        exact hv
      · unfold EqSettledOld eqExpected
        dsimp only
        rw [if_neg hv]
        exact ⟨rfl, rfl⟩

theorem eqRunErrs_congr (vf vg : CsvRow → Option EquipmentView) :
    ∀ (rows : List CsvRow) (n : Nat),
      (∀ r ∈ rows, ∀ m, eqRowErrs (vf r) m r = eqRowErrs (vg r) m r) →
      eqRunErrs vf n rows = eqRunErrs vg n rows := by
  intro rows
  induction rows with
  | nil => intro n h; rfl
  | cons r rest ih =>
      intro n h
      unfold eqRunErrs
      rw [h r (List.mem_cons_self r rest) n,
        ih (n + 1) (fun x hx m => h x (List.mem_cons_of_mem r hx) m)]

theorem import_equipment_row_settled (st : EqImportState) (n : Nat) (r : CsvRow)
    (h : eqNonblank r = true → EqSettledOld r (dget st.emap (rowKeyE r))) :
    import_equipment_row [] st n r =
      { st with
          skipped := st.skipped +
            (if eqRowSettled (dget st.emap (rowKeyE r)) r then 1 else 0),
          errors := st.errors ++ eqRowErrs (dget st.emap (rowKeyE r)) n r } := by
  by_cases hb : pstrip (r.name.getD (String.mk [])) = String.mk []
  · rw [eqRowSettled_blank _ _ hb, eqRowErrs_blank _ _ _ hb]
    unfold import_equipment_row
    dsimp only
    rw [if_pos hb]
    simp
  · have hnb : eqNonblank r = true := decide_eq_true hb
    have hs := h hnb
    unfold EqSettledOld rowKeyE at hs
    unfold import_equipment_row
    dsimp only
    rw [if_neg hb]
    cases hm : dget st.emap (plower (pstrip (r.name.getD (String.mk [])))) with
    | some v =>
        dsimp only
        rw [hm] at hs
        obtain ⟨hd, he⟩ := hs
        have hset : eqRowSettled (dget st.emap (rowKeyE r)) r = true := by
          unfold eqRowSettled rowKeyE
          dsimp only
          rw [if_neg hb, hm]
        have herr : eqRowErrs (dget st.emap (rowKeyE r)) n r = [] := by
          unfold eqRowErrs rowKeyE
          dsimp only
          rw [if_neg hb, hm]
        have hdc : decide (parseDescription r.description ≠ v.description) = false := by
          rw [hd]
          simp
        have hec : decide (parseEnabledEquip r.enabled ≠ v.enabled) = false := by
          rw [he]
          simp
        rw [hset, herr, hdc, hec]
        simp
    | none =>
        dsimp only
        rw [hm] at hs
        have hset : eqRowSettled (dget st.emap (rowKeyE r)) r = false := by
          unfold eqRowSettled rowKeyE
          dsimp only
          rw [if_neg hb, hm, hs]
          rfl
        have herr : eqRowErrs (dget st.emap (rowKeyE r)) n r = [eqCreateErrMsg n] := by
          unfold eqRowErrs rowKeyE
          dsimp only
          rw [if_neg hb, hm, if_pos hs]
        rw [hset, herr, hs]
        simp

theorem import_equipment_rows_settled :
    ∀ (rows : List CsvRow) (st : EqImportState) (n : Nat),
      (∀ r ∈ rows, eqNonblank r = true → EqSettledOld r (dget st.emap (rowKeyE r))) →
      import_equipment_rows st n (rows.map (fun r => (r, []))) =
        { st with
            skipped := st.skipped +
              rows.countP (fun r => eqRowSettled (dget st.emap (rowKeyE r)) r),
            errors := st.errors ++
              eqRunErrs (fun r => dget st.emap (rowKeyE r)) n rows } := by
  intro rows
  induction rows with
  | nil =>
      intro st n h
      simp [import_equipment_rows, eqRunErrs]
  | cons r rest ih =>
      intro st n h
      rw [List.map_cons]
      unfold import_equipment_rows
      rw [import_equipment_row_settled st n r (h r (List.mem_cons_self r rest))]
      rw [ih { st with
            skipped := st.skipped +
              (if eqRowSettled (dget st.emap (rowKeyE r)) r then 1 else 0),
            errors := st.errors ++ eqRowErrs (dget st.emap (rowKeyE r)) n r }
          (n + 1) (fun x hx hnb => h x (List.mem_cons_of_mem r hx) hnb)]
      simp only [List.countP_cons, eqRunErrs, List.append_assoc]
      simp only [EqImportState.mk.injEq, and_true, true_and]
      omega

theorem equipmentUpdateApply_lastByKey (vname : String) (d : Option String)
    (en dc ec : Bool) (κ : String) (l : List Equipment) :
    lastByKey (fun e => plower e.name) κ (equipmentUpdateApply vname d en dc ec l) =
      (lastByKey (fun e => plower e.name) κ l).map
        (fun e => if e.name = vname then
            { e with description := if dc then d else e.description,
                     enabled := if ec then en else e.enabled }
          else e) := by
  unfold equipmentUpdateApply
  apply lastByKey_map
  intro x hx
  by_cases hxe : x.name = vname
  · rw [if_pos hxe]
  · rw [if_neg hxe]

theorem equipmentUpdateApply_lastByKey_other (vname : String) (d : Option String)
    (en dc ec : Bool) (κ : String) (l : List Equipment) (hk : κ ≠ plower vname) :
    lastByKey (fun e => plower e.name) κ (equipmentUpdateApply vname d en dc ec l) =
      lastByKey (fun e => plower e.name) κ l := by
  rw [equipmentUpdateApply_lastByKey]
  cases hl : lastByKey (fun e => plower e.name) κ l with
  | none => rfl
  | some e =>
      have hmem := lastByKey_mem (fun e => plower e.name) κ l e hl
      have hne : ¬ e.name = vname := by
        intro hEq
        apply hk
        have h2 := hmem.2
        dsimp only at h2
        rw [← h2, hEq]
      rw [Option.map_some']
      rw [if_neg hne]

theorem equipmentUpdateApply_lastByKey_self (vname : String) (d : Option String)
    (en dc ec : Bool) (κ : String) (l : List Equipment) (e0 : Equipment)
    (hl : lastByKey (fun e => plower e.name) κ l = some e0)
    (hname : e0.name = vname) :
    lastByKey (fun e => plower e.name) κ (equipmentUpdateApply vname d en dc ec l) =
      some { e0 with description := if dc then d else e0.description,
                     enabled := if ec then en else e0.enabled } := by
  rw [equipmentUpdateApply_lastByKey, hl, Option.map_some']
  rw [if_pos hname]

theorem import_equipment_row_blank (st : EqImportState) (n : Nat) (r : CsvRow)
    (hb : pstrip (r.name.getD (String.mk [])) = String.mk []) :
    import_equipment_row [] st n r = { st with skipped := st.skipped + 1 } := by
  unfold import_equipment_row
  dsimp only
  rw [if_pos hb]

theorem import_equipment_row_run1_step (store0 : List Equipment)
    (st : EqImportState) (n : Nat) (r : CsvRow) (hnb : eqNonblank r = true)
    (h1 : dget st.emap (rowKeyE r) =
      (lastByKey (fun e => plower e.name) (rowKeyE r) store0).map Equipment.view)
    (h2 : lastByKey (fun e => plower e.name) (rowKeyE r) st.store =
      lastByKey (fun e => plower e.name) (rowKeyE r) store0) :
    (lastByKey (fun e => plower e.name) (rowKeyE r)
        (import_equipment_row [] st n r).store).map Equipment.view =
      eqExpected r
        ((lastByKey (fun e => plower e.name) (rowKeyE r) store0).map
          Equipment.view) ∧
    (∀ κ, κ ≠ rowKeyE r →
      lastByKey (fun e => plower e.name) κ (import_equipment_row [] st n r).store =
        lastByKey (fun e => plower e.name) κ st.store) ∧
    (∀ κ, κ ≠ rowKeyE r →
      dget (import_equipment_row [] st n r).emap κ = dget st.emap κ) ∧
    (import_equipment_row [] st n r).errors =
      st.errors ++ eqRowErrs
        ((lastByKey (fun e => plower e.name) (rowKeyE r) store0).map
          Equipment.view) n r ∧
    (import_equipment_row [] st n r).created +
        (import_equipment_row [] st n r).updated +
        (import_equipment_row [] st n r).skipped =
      st.created + st.updated + st.skipped +
        (if eqRowSettled
            ((lastByKey (fun e => plower e.name) (rowKeyE r) store0).map
              Equipment.view) r then 1 else 0) := by
  have hbne : ¬ pstrip (r.name.getD (String.mk [])) = String.mk [] :=
    of_decide_eq_true hnb
  unfold rowKeyE at h1 h2 ⊢
  cases hm0 : lastByKey (fun e => plower e.name)
      (plower (pstrip (r.name.getD (String.mk [])))) store0 with
  | some e0 =>
      rw [hm0] at h1 h2
      rw [Option.map_some'] at h1
      have hkey0 : plower e0.name = plower (pstrip (r.name.getD (String.mk []))) :=
        (lastByKey_mem (fun e => plower e.name) _ store0 e0 hm0).2
      have herr0 : eqRowErrs (some (Equipment.view e0)) n r = [] := by
        unfold eqRowErrs
        dsimp only
        rw [if_neg hbne]
      have hset0 : eqRowSettled (some (Equipment.view e0)) r = true := by
        unfold eqRowSettled
        dsimp only
        rw [if_neg hbne]
      have hexp0 : eqExpected r (some (Equipment.view e0)) =
          some { name := e0.name, description := parseDescription r.description,
                 enabled := parseEnabledEquip r.enabled } := by
        unfold eqExpected
        dsimp only [Equipment.view]
      rw [Option.map_some', herr0, hset0, hexp0]
      unfold import_equipment_row
      dsimp only
      rw [if_neg hbne, h1]
      dsimp only [Equipment.view]
      by_cases hchg : (decide (parseDescription r.description ≠ e0.description) ||
          decide (parseEnabledEquip r.enabled ≠ e0.enabled)) = true
      · rw [if_pos hchg]
        have hdX : (if decide (parseDescription r.description ≠ e0.description) = true
              then parseDescription r.description else e0.description) =
            parseDescription r.description := by
          by_cases hcd : decide (parseDescription r.description ≠ e0.description) = true
          · rw [if_pos hcd]
          · rw [if_neg hcd]
            exact (not_not.mp (of_decide_eq_false (Bool.eq_false_iff.mpr hcd))).symm
        have heX : (if decide (parseEnabledEquip r.enabled ≠ e0.enabled) = true
              then parseEnabledEquip r.enabled else e0.enabled) =
            parseEnabledEquip r.enabled := by
          by_cases hce : decide (parseEnabledEquip r.enabled ≠ e0.enabled) = true
          · rw [if_pos hce]
          · rw [if_neg hce]
            exact (not_not.mp (of_decide_eq_false (Bool.eq_false_iff.mpr hce))).symm
        refine ⟨?_, ?_, fun κ hκ => rfl, (List.append_nil st.errors).symm,
          by (try dsimp only); (try simp only [eq_self_iff_true, if_true, Bool.false_eq_true, if_false]); omega⟩
        · rw [equipmentUpdateApply_lastByKey_self _ _ _ _ _ _ _ _ h2 rfl,
            Option.map_some']
          dsimp only [Equipment.view]
          rw [hdX, heX]
        · intro κ hκ
          exact equipmentUpdateApply_lastByKey_other _ _ _ _ _ _ _
            (fun hEq => hκ (hEq.trans hkey0))
      · rw [if_neg hchg]
        have hpair : decide (parseDescription r.description ≠ e0.description) = false ∧
            decide (parseEnabledEquip r.enabled ≠ e0.enabled) = false := by
          have h := Bool.eq_false_iff.mpr hchg
          exact Bool.or_eq_false_iff.mp h
        have hd : parseDescription r.description = e0.description :=
          not_not.mp (of_decide_eq_false hpair.1)
        have he : parseEnabledEquip r.enabled = e0.enabled :=
          not_not.mp (of_decide_eq_false hpair.2)
        refine ⟨?_, fun κ hκ => rfl, fun κ hκ => rfl,
          (List.append_nil st.errors).symm, by (try dsimp only); (try simp only [eq_self_iff_true, if_true, Bool.false_eq_true, if_false]); omega⟩
        rw [h2, Option.map_some']
        dsimp only [Equipment.view]
        rw [hd, he]
  | none =>
      rw [hm0] at h1 h2
      rw [Option.map_none'] at h1
      rw [Option.map_none']
      have hall := (lastByKey_none_iff (fun e => plower e.name) _ st.store).mp h2
      unfold import_equipment_row
      dsimp only
      rw [if_neg hbne, h1]
      dsimp only
      by_cases hv : equipmentCreateInvalid (pstrip (r.name.getD (String.mk [])))
          (parseDescription r.description) = true
      · rw [if_pos hv]
        have herr0 : eqRowErrs none n r = [eqCreateErrMsg n] := by
          unfold eqRowErrs
          dsimp only
          rw [if_neg hbne, if_pos hv]
        have hset0 : eqRowSettled none r = false := by
          unfold eqRowSettled
          dsimp only
          rw [if_neg hbne, hv]
          rfl
        have hexp0 : eqExpected r none = none := by
          unfold eqExpected
          dsimp only
          rw [if_pos hv]
        rw [herr0, hset0, hexp0]
        refine ⟨?_, fun κ hκ => rfl, fun κ hκ => rfl, rfl, by (try dsimp only); (try simp only [eq_self_iff_true, if_true, Bool.false_eq_true, if_false]); omega⟩
        rw [h2, Option.map_none']
      · rw [if_neg hv]
        have hvf : equipmentCreateInvalid (pstrip (r.name.getD (String.mk [])))
            (parseDescription r.description) = false := Bool.eq_false_iff.mpr hv
        have herr0 : eqRowErrs none n r = [] := by
          unfold eqRowErrs
          dsimp only
          rw [if_neg hbne, if_neg hv]
        have hset0 : eqRowSettled none r = true := by
          unfold eqRowSettled
          dsimp only
          rw [if_neg hbne, hvf]
          rfl
        have hexp0 : eqExpected r none =
            some { name := pstrip (r.name.getD (String.mk [])),
                   description := parseDescription r.description,
                   enabled := parseEnabledEquip r.enabled } := by
          unfold eqExpected
          dsimp only
          rw [if_neg hv]
        have hany : ((st.store ++ []).any
            (fun e => decide (e.name = pstrip (r.name.getD (String.mk []))))) =
              false := by
          rw [List.append_nil, List.any_eq_false]
          intro e he
          intro hdec
          have hEq := of_decide_eq_true hdec
          have h := hall e he
          exact h (by rw [hEq])
        rw [herr0, hset0, hexp0, hany]
        simp only [Bool.false_eq_true, if_false]
        refine ⟨?_, ?_, ?_, (List.append_nil st.errors).symm, by (try dsimp only); (try simp only [eq_self_iff_true, if_true, Bool.false_eq_true, if_false]); omega⟩
        · rw [List.append_nil, lastByKey_append_single]
          rw [if_pos rfl, Option.map_some']
          dsimp only [Equipment.view]
        · intro κ hκ
          rw [List.append_nil, lastByKey_append_single]
          rw [if_neg (fun hEq => hκ hEq.symm)]
        · intro κ hκ
          exact dget_dinsert_ne _ κ _ st.emap hκ

theorem eqRunErrs_cons (vf : CsvRow → Option EquipmentView) (n : Nat) (r : CsvRow)
    (rest : List CsvRow) :
    eqRunErrs vf n (r :: rest) = eqRowErrs (vf r) n r ++ eqRunErrs vf (n + 1) rest :=
  rfl

theorem exRunErrs_cons (mgMap : List (String × Nat)) (vf : CsvRow → Option Exercise)
    (n : Nat) (r : CsvRow) (rest : List CsvRow) :
    exRunErrs mgMap vf n (r :: rest) =
      exRowErrs mgMap (vf r) n r ++ exRunErrs mgMap vf (n + 1) rest :=
  rfl

theorem import_equipment_rows_run1 (store0 : List Equipment) :
    ∀ (rows : List CsvRow) (st : EqImportState) (n : Nat),
      (∀ r ∈ rows, eqNonblank r = true →
        dget st.emap (rowKeyE r) =
          (lastByKey (fun e => plower e.name) (rowKeyE r) store0).map
            Equipment.view) →
      (∀ r ∈ rows, eqNonblank r = true →
        lastByKey (fun e => plower e.name) (rowKeyE r) st.store =
          lastByKey (fun e => plower e.name) (rowKeyE r) store0) →
      ((rows.filter eqNonblank).map rowKeyE).Nodup →
      (∀ κ, (∀ r ∈ rows, eqNonblank r = true → rowKeyE r ≠ κ) →
          lastByKey (fun e => plower e.name) κ
              (import_equipment_rows st n (rows.map (fun r => (r, [])))).store =
            lastByKey (fun e => plower e.name) κ st.store) ∧
      (∀ r ∈ rows, eqNonblank r = true →
          (lastByKey (fun e => plower e.name) (rowKeyE r)
              (import_equipment_rows st n (rows.map (fun r => (r, [])))).store).map
            Equipment.view =
            eqExpected r
              ((lastByKey (fun e => plower e.name) (rowKeyE r) store0).map
                Equipment.view)) ∧
      (import_equipment_rows st n (rows.map (fun r => (r, [])))).errors =
        st.errors ++ eqRunErrs
          (fun r => (lastByKey (fun e => plower e.name) (rowKeyE r) store0).map
            Equipment.view) n rows ∧
      (import_equipment_rows st n (rows.map (fun r => (r, [])))).created +
          (import_equipment_rows st n (rows.map (fun r => (r, [])))).updated +
          (import_equipment_rows st n (rows.map (fun r => (r, [])))).skipped =
        st.created + st.updated + st.skipped +
          rows.countP (fun r => eqRowSettled
            ((lastByKey (fun e => plower e.name) (rowKeyE r) store0).map
              Equipment.view) r) := by
  intro rows
  induction rows with
  | nil =>
      intro st n hemap hstore hnodup
      refine ⟨fun κ hκ => rfl, fun r hr => absurd hr (List.not_mem_nil r), ?_, ?_⟩
      · simp [import_equipment_rows, eqRunErrs]
      · simp [import_equipment_rows]
  | cons r rest ih =>
      intro st n hemap hstore hnodup
      have hmemr := List.mem_cons_self r rest
      have hloop : import_equipment_rows st n ((r :: rest).map (fun r => (r, []))) =
          import_equipment_rows (import_equipment_row [] st n r) (n + 1)
            (rest.map (fun r => (r, []))) := by
        rw [List.map_cons]
        rfl
      rw [hloop]
      by_cases hb : eqNonblank r = true
      · obtain ⟨sOwn, sOther, sEmap, sErr, sCnt⟩ :=
          import_equipment_row_run1_step store0 st n r hb (hemap r hmemr hb)
            (hstore r hmemr hb)
        rw [List.filter_cons_of_pos hb, List.map_cons] at hnodup
        have hnodup2 := List.nodup_cons.mp hnodup
        have hnotin : ∀ x ∈ rest, eqNonblank x = true → rowKeyE x ≠ rowKeyE r := by
          intro x hx hxnb hEq
          exact hnodup2.1
            (List.mem_map.mpr ⟨x, List.mem_filter.mpr ⟨hx, hxnb⟩, hEq⟩)
        obtain ⟨iFrame, iOwn, iErr, iCnt⟩ := ih (import_equipment_row [] st n r)
          (n + 1)
          (fun x hx hxnb => (sEmap (rowKeyE x) (hnotin x hx hxnb)).trans
            (hemap x (List.mem_cons_of_mem r hx) hxnb))
          (fun x hx hxnb => (sOther (rowKeyE x) (hnotin x hx hxnb)).trans
            (hstore x (List.mem_cons_of_mem r hx) hxnb))
          hnodup2.2
        refine ⟨?_, ?_, ?_, ?_⟩
        · intro κ hκ
          rw [iFrame κ (fun x hx hxnb => hκ x (List.mem_cons_of_mem r hx) hxnb)]
          exact sOther κ (Ne.symm (hκ r hmemr hb))
        · intro x hx hxnb
          rcases List.mem_cons.mp hx with hEq | hxr
          · rw [hEq]
            rw [iFrame (rowKeyE r) (fun y hy hynb => hnotin y hy hynb)]
            exact sOwn
          · exact iOwn x hxr hxnb
        · rw [iErr, sErr, eqRunErrs_cons, List.append_assoc]
        · rw [iCnt, sCnt]
          simp only [List.countP_cons]
          omega
      · have hbl : pstrip (r.name.getD (String.mk [])) = String.mk [] := by
          unfold eqNonblank at hb
          exact not_not.mp (of_decide_eq_false (Bool.eq_false_iff.mpr hb))
        have hstep := import_equipment_row_blank st n r hbl
        have hbf : eqNonblank r = false := Bool.eq_false_iff.mpr hb
        rw [List.filter_cons_of_neg hb] at hnodup
        obtain ⟨iFrame, iOwn, iErr, iCnt⟩ := ih (import_equipment_row [] st n r)
          (n + 1)
          (fun x hx hxnb => by
            rw [hstep]
            exact hemap x (List.mem_cons_of_mem r hx) hxnb)
          (fun x hx hxnb => by
            rw [hstep]
            exact hstore x (List.mem_cons_of_mem r hx) hxnb)
          hnodup
        refine ⟨?_, ?_, ?_, ?_⟩
        · intro κ hκ
          rw [iFrame κ (fun x hx hxnb => hκ x (List.mem_cons_of_mem r hx) hxnb),
            hstep]
        · intro x hx hxnb
          rcases List.mem_cons.mp hx with hEq | hxr
          · rw [hEq] at hxnb
            exact absurd hxnb hb
          · exact iOwn x hxr hxnb
        · rw [iErr, hstep]
          dsimp only
          rw [eqRunErrs_cons, eqRowErrs_blank _ _ _ hbl, List.nil_append]
        · rw [iCnt, hstep]
          simp only [List.countP_cons]
          rw [eqRowSettled_blank _ _ hbl]
          simp only [eq_self_iff_true, if_true]
          try dsimp only
          omega

theorem exRunErrs_congr (mgMap : List (String × Nat))
    (vf vg : CsvRow → Option Exercise) :
    ∀ (rows : List CsvRow) (n : Nat),
      (∀ r ∈ rows, ∀ m, exRowErrs mgMap (vf r) m r = exRowErrs mgMap (vg r) m r) →
      exRunErrs mgMap vf n rows = exRunErrs mgMap vg n rows := by
  intro rows
  induction rows with
  | nil => intro n h; rfl
  | cons r rest ih =>
      intro n h
      unfold exRunErrs
      rw [h r (List.mem_cons_self r rest) n,
        ih (n + 1) (fun x hx m => h x (List.mem_cons_of_mem r hx) m)]

theorem import_exercises_row_settled (mgMap : List (String × Nat))
    (st : ExImportState) (n : Nat) (r : CsvRow)
    (h : exRowRejected r = false → ExSettledOld mgMap r (dget st.emap (rowKeyE r))) :
    import_exercises_row mgMap st n r =
      { st with
          skipped := st.skipped +
            (if exRowSettled mgMap (dget st.emap (rowKeyE r)) r then 1 else 0),
          errors := st.errors ++ exRowErrs mgMap (dget st.emap (rowKeyE r)) n r } := by
  have hkr : rowKeyE r = plower (exRowName r) := rfl
  rcases parse_exercise_row_shape mgMap n r with ⟨hrej, errs, hp⟩ | ⟨hcand, errs, hp⟩
  · have hset := exRowSettled_rejected mgMap (dget st.emap (rowKeyE r)) r hrej
    have herr : exRowErrs mgMap (dget st.emap (rowKeyE r)) n r = errs := by
      unfold exRowErrs
      rw [hp]
    rw [hset, herr]
    unfold import_exercises_row
    rw [hp]
    simp
  · have hs := h hcand
    unfold ExSettledOld at hs
    rw [hkr] at hs
    unfold import_exercises_row
    rw [hp]
    dsimp only
    cases hm : dget st.emap (plower (exRowName r)) with
    | some v =>
        rw [hm] at hs
        dsimp only at hs ⊢
        have hset : exRowSettled mgMap (dget st.emap (rowKeyE r)) r =
            (if exercise_needs_update v (exRowName r) (exRowPids mgMap r)
                (exRowSids mgMap r) (exRowEnabled r) then
              !(exerciseUpdateInvalid v (exRowName r) (exRowPids mgMap r))
            else true) := by
          unfold exRowSettled
          rw [hcand, hkr, hm]
          simp only [Bool.false_eq_true, if_false]
        have herr : exRowErrs mgMap (dget st.emap (rowKeyE r)) n r =
            errs ++ (if exercise_needs_update v (exRowName r) (exRowPids mgMap r)
                (exRowSids mgMap r) (exRowEnabled r) then
              (if exerciseUpdateInvalid v (exRowName r) (exRowPids mgMap r) then
                [exUpdateErrMsg n] else [])
            else []) := by
          unfold exRowErrs
          rw [hp, hkr, hm]
          unfold exRowOutcomeErrs
          dsimp only
        rw [hset, herr]
        rcases hs with hnuf | hui
        · simp only [hnuf]
          simp
        · by_cases hnu : exercise_needs_update v (exRowName r) (exRowPids mgMap r)
              (exRowSids mgMap r) (exRowEnabled r) = true
          · simp only [hnu, hui]
            simp
          · simp only [Bool.eq_false_iff.mpr hnu]
            simp
    | none =>
        rw [hm] at hs
        dsimp only at hs ⊢
        have hset : exRowSettled mgMap (dget st.emap (rowKeyE r)) r = false := by
          unfold exRowSettled
          rw [hcand, hkr, hm]
          simp only [Bool.false_eq_true, if_false]
          rw [hs]
          rfl
        have herr : exRowErrs mgMap (dget st.emap (rowKeyE r)) n r =
            errs ++ [exCreateErrMsg n] := by
          unfold exRowErrs
          rw [hp, hkr, hm]
          unfold exRowOutcomeErrs
          dsimp only
          rw [if_pos hs]
        rw [hset, herr, hs]
        simp

theorem import_exercises_rows_settled (mgMap : List (String × Nat)) :
    ∀ (rows : List CsvRow) (st : ExImportState) (n : Nat),
      (∀ r ∈ rows, exRowRejected r = false →
        ExSettledOld mgMap r (dget st.emap (rowKeyE r))) →
      import_exercises_rows mgMap st n rows =
        { st with
            skipped := st.skipped +
              rows.countP (fun r => exRowSettled mgMap (dget st.emap (rowKeyE r)) r),
            errors := st.errors ++
              exRunErrs mgMap (fun r => dget st.emap (rowKeyE r)) n rows } := by
  intro rows
  induction rows with
  | nil =>
      intro st n h
      simp [import_exercises_rows, exRunErrs]
  | cons r rest ih =>
      intro st n h
      unfold import_exercises_rows
      rw [import_exercises_row_settled mgMap st n r (h r (List.mem_cons_self r rest))]
      rw [ih { st with
            skipped := st.skipped +
              (if exRowSettled mgMap (dget st.emap (rowKeyE r)) r then 1 else 0),
            errors := st.errors ++ exRowErrs mgMap (dget st.emap (rowKeyE r)) n r }
          (n + 1) (fun x hx hnr => h x (List.mem_cons_of_mem r hx) hnr)]
      simp only [List.countP_cons, exRunErrs, List.append_assoc]
      simp only [ExImportState.mk.injEq, and_true, true_and]
      omega

theorem exerciseUpdateApply_lastByKey (v : Exercise) (name : String)
    (pids sids : List Nat) (enabled : Bool) (κ : String) (l : List Exercise)
    (hnd : (l.map (fun e => e.id)).Nodup) (hv : v ∈ l)
    (hpn : plower name = plower v.name) :
    lastByKey (fun e => plower e.name) κ
        (exerciseUpdateApply v name pids sids enabled l) =
      (lastByKey (fun e => plower e.name) κ l).map
        (fun e => if e.id = v.id then
            { e with
                name := if v.name ≠ name then name else e.name,
                primary_muscle_group_ids :=
                  if v.primary_muscle_group_ids.toFinset ≠ pids.toFinset then pids
                  else e.primary_muscle_group_ids,
                secondary_muscle_group_ids :=
                  if v.secondary_muscle_group_ids.toFinset ≠ sids.toFinset then sids
                  else e.secondary_muscle_group_ids,
                enabled := if v.enabled ≠ enabled then enabled else e.enabled }
          else e) := by
  unfold exerciseUpdateApply
  apply lastByKey_map
  intro x hx
  by_cases hid : x.id = v.id
  · have hxv : x = v := List.inj_on_of_nodup_map hnd hx hv hid
    rw [if_pos hid, hxv]
    dsimp only
    by_cases hnm : v.name ≠ name
    · rw [if_pos hnm]
      exact hpn
    · rw [if_neg hnm]
  · rw [if_neg hid]

theorem exerciseUpdateApply_lastByKey_self (v : Exercise) (name : String)
    (pids sids : List Nat) (enabled : Bool) (κ : String) (l : List Exercise)
    (hnd : (l.map (fun e => e.id)).Nodup)
    (hl : lastByKey (fun e => plower e.name) κ l = some v)
    (hpn : plower name = plower v.name) :
    lastByKey (fun e => plower e.name) κ
        (exerciseUpdateApply v name pids sids enabled l) =
      some (exUpdatedRecord v name pids sids enabled) := by
  have hv := (lastByKey_mem (fun e => plower e.name) κ l v hl).1
  rw [exerciseUpdateApply_lastByKey v name pids sids enabled κ l hnd hv hpn, hl,
    Option.map_some', if_pos rfl]
  rfl

theorem exerciseUpdateApply_lastByKey_other (v : Exercise) (name : String)
    (pids sids : List Nat) (enabled : Bool) (κ κ2 : String) (l : List Exercise)
    (hnd : (l.map (fun e => e.id)).Nodup)
    (hl : lastByKey (fun e => plower e.name) κ l = some v)
    (hpn : plower name = plower v.name) (hne : κ2 ≠ κ) :
    lastByKey (fun e => plower e.name) κ2
        (exerciseUpdateApply v name pids sids enabled l) =
      lastByKey (fun e => plower e.name) κ2 l := by
  have hv := (lastByKey_mem (fun e => plower e.name) κ l v hl).1
  have hκv : plower v.name = κ := (lastByKey_mem (fun e => plower e.name) κ l v hl).2
  rw [exerciseUpdateApply_lastByKey v name pids sids enabled κ2 l hnd hv hpn]
  cases he : lastByKey (fun e => plower e.name) κ2 l with
  | none => rfl
  | some e =>
      have hem := lastByKey_mem (fun e => plower e.name) κ2 l e he
      have hide : ¬ e.id = v.id := by
        intro hid
        have hev : e = v := List.inj_on_of_nodup_map hnd hem.1 hv hid
        apply hne
        rw [← hem.2, hev]
        exact hκv
      rw [Option.map_some', if_neg hide]

theorem exerciseUpdateApply_map_id (v : Exercise) (name : String)
    (pids sids : List Nat) (enabled : Bool) (l : List Exercise) :
    (exerciseUpdateApply v name pids sids enabled l).map (fun e => e.id) =
      l.map (fun e => e.id) := by
  unfold exerciseUpdateApply
  rw [List.map_map]
  apply List.map_congr_left
  intro x hx
  by_cases hid : x.id = v.id
  · simp only [Function.comp_apply, if_pos hid]
  · simp only [Function.comp_apply, if_neg hid]

theorem exerciseUpdateApply_mem_id (v : Exercise) (name : String)
    (pids sids : List Nat) (enabled : Bool) (l : List Exercise) (y : Exercise)
    (hy : y ∈ exerciseUpdateApply v name pids sids enabled l) :
    ∃ x ∈ l, y.id = x.id := by
  unfold exerciseUpdateApply at hy
  obtain ⟨x, hx, hxy⟩ := List.mem_map.mp hy
  refine ⟨x, hx, ?_⟩
  rw [← hxy]
  by_cases hid : x.id = v.id
  · rw [if_pos hid]
  · rw [if_neg hid]

theorem exercise_needs_update_self (w : Exercise) (name : String)
    (pids sids : List Nat) (enabled : Bool) (hn : w.name = name)
    (hp : w.primary_muscle_group_ids.toFinset = pids.toFinset)
    (hs : w.secondary_muscle_group_ids.toFinset = sids.toFinset)
    (he : w.enabled = enabled) :
    exercise_needs_update w name pids sids enabled = false := by
  unfold exercise_needs_update
  rw [hn, hp, hs, he]
  simp

theorem exUpdatedRecord_noupdate (v : Exercise) (name : String)
    (pids sids : List Nat) (enabled : Bool) :
    exercise_needs_update (exUpdatedRecord v name pids sids enabled) name pids
      sids enabled = false := by
  apply exercise_needs_update_self
  · unfold exUpdatedRecord
    dsimp only
    by_cases h : v.name ≠ name
    · rw [if_pos h]
    · rw [if_neg h]
      exact not_not.mp h
  · unfold exUpdatedRecord
    dsimp only
    by_cases h : v.primary_muscle_group_ids.toFinset ≠ pids.toFinset
    · rw [if_pos h]
    · rw [if_neg h]
      exact not_not.mp h
  · unfold exUpdatedRecord
    dsimp only
    by_cases h : v.secondary_muscle_group_ids.toFinset ≠ sids.toFinset
    · rw [if_pos h]
    · rw [if_neg h]
      exact not_not.mp h
  · unfold exUpdatedRecord
    dsimp only
    by_cases h : v.enabled ≠ enabled
    · rw [if_pos h]
    · rw [if_neg h]
      exact not_not.mp h

theorem import_exercises_row_run1_step (mgMap : List (String × Nat))
    (store0 : List Exercise) (st : ExImportState) (n : Nat) (r : CsvRow)
    (hcand : exRowRejected r = false)
    (h1 : dget st.emap (rowKeyE r) =
      lastByKey (fun e => plower e.name) (rowKeyE r) store0)
    (h2 : lastByKey (fun e => plower e.name) (rowKeyE r) st.store =
      lastByKey (fun e => plower e.name) (rowKeyE r) store0)
    (hnd : (st.store.map (fun e => e.id)).Nodup)
    (hlt : ∀ e ∈ st.store, e.id < st.nextId) :
    ExSettledOld mgMap r (lastByKey (fun e => plower e.name) (rowKeyE r)
        (import_exercises_row mgMap st n r).store) ∧
    (∀ m, exRowErrs mgMap (lastByKey (fun e => plower e.name) (rowKeyE r)
          (import_exercises_row mgMap st n r).store) m r =
        exRowErrs mgMap (lastByKey (fun e => plower e.name) (rowKeyE r) store0)
          m r) ∧
    exRowSettled mgMap (lastByKey (fun e => plower e.name) (rowKeyE r)
        (import_exercises_row mgMap st n r).store) r =
      exRowSettled mgMap (lastByKey (fun e => plower e.name) (rowKeyE r) store0)
        r ∧
    (∀ κ, κ ≠ rowKeyE r →
      lastByKey (fun e => plower e.name) κ
          (import_exercises_row mgMap st n r).store =
        lastByKey (fun e => plower e.name) κ st.store) ∧
    (import_exercises_row mgMap st n r).errors =
      st.errors ++ exRowErrs mgMap
        (lastByKey (fun e => plower e.name) (rowKeyE r) store0) n r ∧
    (import_exercises_row mgMap st n r).created +
        (import_exercises_row mgMap st n r).updated +
        (import_exercises_row mgMap st n r).skipped =
      st.created + st.updated + st.skipped +
        (if exRowSettled mgMap
            (lastByKey (fun e => plower e.name) (rowKeyE r) store0) r
          then 1 else 0) ∧
    ((import_exercises_row mgMap st n r).store.map (fun e => e.id)).Nodup ∧
    (∀ e ∈ (import_exercises_row mgMap st n r).store,
      e.id < (import_exercises_row mgMap st n r).nextId) := by
  rcases parse_exercise_row_shape mgMap n r with ⟨hrej, _, _⟩ | ⟨_, errs, hp⟩
  · rw [hrej] at hcand
    cases hcand
  have herrEq : ∀ (o1 o2 : Option Exercise),
      (∀ m2, exRowOutcomeErrs o1 m2 (exRowName r) (exRowPids mgMap r)
          (exRowSids mgMap r) (exRowEnabled r) =
        exRowOutcomeErrs o2 m2 (exRowName r) (exRowPids mgMap r)
          (exRowSids mgMap r) (exRowEnabled r)) →
      ∀ m, exRowErrs mgMap o1 m r = exRowErrs mgMap o2 m r := by
    intro o1 o2 ho m
    rcases parse_exercise_row_shape mgMap m r with ⟨hrej2, _, _⟩ | ⟨_, errsm, hpm⟩
    · rw [hrej2] at hcand
      cases hcand
    · unfold exRowErrs
      rw [hpm]
      dsimp only
      rw [ho m]
  have hsetSome : ∀ (v : Exercise), exRowSettled mgMap (some v) r =
      (if exercise_needs_update v (exRowName r) (exRowPids mgMap r)
          (exRowSids mgMap r) (exRowEnabled r) then
        !(exerciseUpdateInvalid v (exRowName r) (exRowPids mgMap r))
      else true) := by
    intro v
    unfold exRowSettled
    rw [hcand]
    simp only [Bool.false_eq_true, if_false]
  have hsetNone : exRowSettled mgMap none r =
      !(exerciseCreateInvalid (exRowName r) (exRowPids mgMap r)) := by
    unfold exRowSettled
    rw [hcand]
    simp only [Bool.false_eq_true, if_false]
  cases hm0 : lastByKey (fun e => plower e.name) (rowKeyE r) store0 with
  | some v =>
      rw [hm0] at h1 h2
      have hκv : plower v.name = rowKeyE r :=
        (lastByKey_mem (fun e => plower e.name) (rowKeyE r) store0 v hm0).2
      have hpn : plower (exRowName r) = plower v.name := hκv.symm
      have h1x : dget st.emap (plower (exRowName r)) = some v := h1
      unfold import_exercises_row
      rw [hp]
      dsimp only
      rw [h1x]
      dsimp only
      by_cases hnu : exercise_needs_update v (exRowName r) (exRowPids mgMap r)
          (exRowSids mgMap r) (exRowEnabled r) = true
      · by_cases hui : exerciseUpdateInvalid v (exRowName r)
            (exRowPids mgMap r) = true
        · rw [if_pos hnu, if_pos hui]
          dsimp only
          refine ⟨?_, ?_, ?_, fun κ hκ => rfl, ?_, ?_, hnd, hlt⟩
          · rw [h2]
            exact Or.inr hui
          · intro m
            rw [h2]
          · rw [h2]
          · unfold exRowErrs
            rw [hp]
            unfold exRowOutcomeErrs
            dsimp only
            rw [if_pos hnu, if_pos hui, List.append_assoc]
          · rw [hsetSome v, if_pos hnu, hui]
            simp only [Bool.not_true, Bool.false_eq_true, if_false]
            omega
        · rw [if_pos hnu, if_neg hui]
          dsimp only
          have hself := exerciseUpdateApply_lastByKey_self v (exRowName r)
            (exRowPids mgMap r) (exRowSids mgMap r) (exRowEnabled r)
            (rowKeyE r) st.store hnd h2 hpn
          have hnuw := exUpdatedRecord_noupdate v (exRowName r)
            (exRowPids mgMap r) (exRowSids mgMap r) (exRowEnabled r)
          refine ⟨?_, ?_, ?_, ?_, ?_, ?_, ?_, ?_⟩
          · rw [hself]
            exact Or.inl hnuw
          · intro m
            rw [hself]
            refine herrEq _ (some v) ?_ m
            intro m2
            unfold exRowOutcomeErrs
            dsimp only
            rw [hnuw, if_pos hnu, if_neg hui]
            simp
          · rw [hself, hsetSome _, hnuw, hsetSome v, if_pos hnu,
              Bool.eq_false_iff.mpr hui]
            simp
          · intro κ hκ
            exact exerciseUpdateApply_lastByKey_other v (exRowName r)
              (exRowPids mgMap r) (exRowSids mgMap r) (exRowEnabled r)
              (rowKeyE r) κ st.store hnd h2 hpn hκ
          · unfold exRowErrs
            rw [hp]
            unfold exRowOutcomeErrs
            dsimp only
            rw [if_pos hnu, if_neg hui, List.append_nil]
          · rw [hsetSome v, if_pos hnu, Bool.eq_false_iff.mpr hui]
            simp only [Bool.not_false, eq_self_iff_true, if_true]
            omega
          · rw [exerciseUpdateApply_map_id]
            exact hnd
          · intro y hy
            obtain ⟨x, hx, hyx⟩ := exerciseUpdateApply_mem_id v (exRowName r)
              (exRowPids mgMap r) (exRowSids mgMap r) (exRowEnabled r)
              st.store y hy
            rw [hyx]
            exact hlt x hx
      · rw [if_neg hnu]
        dsimp only
        have hnuf := Bool.eq_false_iff.mpr hnu
        refine ⟨?_, ?_, ?_, fun κ hκ => rfl, ?_, ?_, hnd, hlt⟩
        · rw [h2]
          exact Or.inl hnuf
        · intro m
          rw [h2]
        · rw [h2]
        · unfold exRowErrs
          rw [hp]
          unfold exRowOutcomeErrs
          dsimp only
          rw [if_neg hnu, List.append_nil]
        · rw [hsetSome v, if_neg hnu]
          simp only [eq_self_iff_true, if_true]
          omega
  | none =>
      rw [hm0] at h1 h2
      have h1x : dget st.emap (plower (exRowName r)) = none := h1
      unfold import_exercises_row
      rw [hp]
      dsimp only
      rw [h1x]
      dsimp only
      by_cases hci : exerciseCreateInvalid (exRowName r) (exRowPids mgMap r) = true
      · rw [if_pos hci]
        dsimp only
        refine ⟨?_, ?_, ?_, fun κ hκ => rfl, ?_, ?_, hnd, hlt⟩
        · rw [h2]
          exact hci
        · intro m
          rw [h2]
        · rw [h2]
        · unfold exRowErrs
          rw [hp]
          unfold exRowOutcomeErrs
          dsimp only
          rw [if_pos hci, List.append_assoc]
        · rw [hsetNone, hci]
          simp only [Bool.not_true, Bool.false_eq_true, if_false]
          omega
      · rw [if_neg hci]
        have hall := (lastByKey_none_iff (fun e => plower e.name)
          (rowKeyE r) st.store).mp h2
        have hany : st.store.any
            (fun e => decide (e.name = exRowName r)) = false := by
          rw [List.any_eq_false]
          intro e he hdec
          have hEq := of_decide_eq_true hdec
          have h := hall e he
          refine h ?_
          rw [hEq]
          rfl
        rw [hany]
        simp only [Bool.false_eq_true, if_false]
        try dsimp only
        have hnew : exercise_needs_update
            { id := st.nextId, name := exRowName r,
              primary_muscle_group_ids := exRowPids mgMap r,
              secondary_muscle_group_ids := exRowSids mgMap r,
              enabled := exRowEnabled r } (exRowName r) (exRowPids mgMap r)
            (exRowSids mgMap r) (exRowEnabled r) = false :=
          exercise_needs_update_self _ _ _ _ _ rfl rfl rfl rfl
        have happ : lastByKey (fun e => plower e.name) (rowKeyE r)
            (st.store ++ [{ id := st.nextId, name := exRowName r, primary_muscle_group_ids := exRowPids mgMap r, secondary_muscle_group_ids := exRowSids mgMap r, enabled := exRowEnabled r }]) =
            some { id := st.nextId, name := exRowName r, primary_muscle_group_ids := exRowPids mgMap r, secondary_muscle_group_ids := exRowSids mgMap r, enabled := exRowEnabled r } := by
          rw [lastByKey_append_single, if_pos]
          rfl
        refine ⟨?_, ?_, ?_, ?_, ?_, ?_, ?_, ?_⟩
        · rw [happ]
          exact Or.inl hnew
        · intro m
          rw [happ]
          refine herrEq _ none ?_ m
          intro m2
          unfold exRowOutcomeErrs
          dsimp only
          rw [hnew, if_neg hci]
          simp
        · rw [happ, hsetSome _, hnew, hsetNone, Bool.eq_false_iff.mpr hci]
          simp
        · intro κ hκ
          rw [lastByKey_append_single]
          rw [if_neg (fun hEq => hκ hEq.symm)]
        · unfold exRowErrs
          rw [hp]
          unfold exRowOutcomeErrs
          dsimp only
          rw [if_neg hci, List.append_nil]
        · rw [hsetNone, Bool.eq_false_iff.mpr hci]
          simp only [Bool.not_false, eq_self_iff_true, if_true]
          omega
        · rw [List.map_append, List.nodup_append]
          refine ⟨hnd, List.nodup_singleton _, ?_⟩
          intro a ha hb
          obtain ⟨e, he, hae⟩ := List.mem_map.mp ha
          rcases List.mem_singleton.mp hb with hbEq
          rw [hbEq] at hae
          have := hlt e he
          dsimp only at hae
          rw [← hae] at this
          exact Nat.lt_irrefl _ this
        · intro y hy
          rcases List.mem_append.mp hy with hy1 | hy2
          · exact Nat.lt_succ_of_lt (hlt y hy1)
          · rcases List.mem_singleton.mp hy2 with hyEq
            rw [hyEq]
            exact Nat.lt_succ_self _

theorem import_exercises_rows_run1 (mgMap : List (String × Nat))
    (store0 : List Exercise) :
    ∀ (rows : List CsvRow) (st : ExImportState) (n : Nat),
      (∀ r ∈ rows, exRowRejected r = false →
        dget st.emap (rowKeyE r) =
          lastByKey (fun e => plower e.name) (rowKeyE r) store0) →
      (∀ r ∈ rows, exRowRejected r = false →
        lastByKey (fun e => plower e.name) (rowKeyE r) st.store =
          lastByKey (fun e => plower e.name) (rowKeyE r) store0) →
      ((rows.filter (fun r => !(exRowRejected r))).map rowKeyE).Nodup →
      (st.store.map (fun e => e.id)).Nodup →
      (∀ e ∈ st.store, e.id < st.nextId) →
      (∀ κ, (∀ r ∈ rows, exRowRejected r = false → rowKeyE r ≠ κ) →
          lastByKey (fun e => plower e.name) κ
              (import_exercises_rows mgMap st n rows).store =
            lastByKey (fun e => plower e.name) κ st.store) ∧
      (∀ r ∈ rows, exRowRejected r = false →
          ExSettledOld mgMap r (lastByKey (fun e => plower e.name) (rowKeyE r)
            (import_exercises_rows mgMap st n rows).store) ∧
          (∀ m, exRowErrs mgMap (lastByKey (fun e => plower e.name) (rowKeyE r)
                (import_exercises_rows mgMap st n rows).store) m r =
              exRowErrs mgMap
                (lastByKey (fun e => plower e.name) (rowKeyE r) store0) m r) ∧
          exRowSettled mgMap (lastByKey (fun e => plower e.name) (rowKeyE r)
              (import_exercises_rows mgMap st n rows).store) r =
            exRowSettled mgMap
              (lastByKey (fun e => plower e.name) (rowKeyE r) store0) r) ∧
      (import_exercises_rows mgMap st n rows).errors =
        st.errors ++ exRunErrs mgMap
          (fun r => lastByKey (fun e => plower e.name) (rowKeyE r) store0) n rows ∧
      (import_exercises_rows mgMap st n rows).created +
          (import_exercises_rows mgMap st n rows).updated +
          (import_exercises_rows mgMap st n rows).skipped =
        st.created + st.updated + st.skipped +
          rows.countP (fun r => exRowSettled mgMap
            (lastByKey (fun e => plower e.name) (rowKeyE r) store0) r) := by
  intro rows
  induction rows with
  | nil =>
      intro st n hemap hstore hnodup hnd hlt
      refine ⟨fun κ hκ => rfl, fun r hr => absurd hr (List.not_mem_nil r), ?_, ?_⟩
      · simp [import_exercises_rows, exRunErrs]
      · simp [import_exercises_rows]
  | cons r rest ih =>
      intro st n hemap hstore hnodup hnd hlt
      have hmemr := List.mem_cons_self r rest
      have hloop : import_exercises_rows mgMap st n (r :: rest) =
          import_exercises_rows mgMap (import_exercises_row mgMap st n r) (n + 1)
            rest := rfl
      rw [hloop]
      have hemapRow := import_exercises_row_emap mgMap st n r
      by_cases hb : exRowRejected r = false
      · obtain ⟨sOwn1, sOwn2, sOwn3, sOther, sErr, sCnt, sNd, sLt⟩ :=
          import_exercises_row_run1_step mgMap store0 st n r hb
            (hemap r hmemr hb) (hstore r hmemr hb) hnd hlt
        rw [List.filter_cons_of_pos (by simp [hb]), List.map_cons] at hnodup
        have hnodup2 := List.nodup_cons.mp hnodup
        have hnotin : ∀ x ∈ rest, exRowRejected x = false →
            rowKeyE x ≠ rowKeyE r := by
          intro x hx hxr hEq
          exact hnodup2.1 (List.mem_map.mpr
            ⟨x, List.mem_filter.mpr ⟨hx, by simp [hxr]⟩, hEq⟩)
        obtain ⟨iFrame, iOwn, iErr, iCnt⟩ := ih (import_exercises_row mgMap st n r)
          (n + 1)
          (fun x hx hxr => by
            rw [hemapRow]
            exact hemap x (List.mem_cons_of_mem r hx) hxr)
          (fun x hx hxr => (sOther (rowKeyE x) (hnotin x hx hxr)).trans
            (hstore x (List.mem_cons_of_mem r hx) hxr))
          hnodup2.2 sNd sLt
        refine ⟨?_, ?_, ?_, ?_⟩
        · intro κ hκ
          rw [iFrame κ (fun x hx hxr => hκ x (List.mem_cons_of_mem r hx) hxr)]
          exact sOther κ (Ne.symm (hκ r hmemr hb))
        · intro x hx hxr
          rcases List.mem_cons.mp hx with hEq | hxrest
          · rw [hEq]
            rw [iFrame (rowKeyE r) (fun y hy hyr => hnotin y hy hyr)]
            exact ⟨sOwn1, sOwn2, sOwn3⟩
          · exact iOwn x hxrest hxr
        · rw [iErr, sErr, exRunErrs_cons, List.append_assoc]
        · rw [iCnt, sCnt]
          simp only [List.countP_cons]
          omega
      · have hbt : exRowRejected r = true := by
          cases hv : exRowRejected r with
          | true => rfl
          | false => exact absurd hv hb
        rcases parse_exercise_row_shape mgMap n r with ⟨_, errs, hpj⟩ | ⟨hcf, _, _⟩
        · have hstep : import_exercises_row mgMap st n r =
              { st with errors := st.errors ++ errs } := by
            unfold import_exercises_row
            rw [hpj]
          have herr : ∀ (o : Option Exercise),
              exRowErrs mgMap o n r = errs := by
            intro o
            unfold exRowErrs
            rw [hpj]
          rw [List.filter_cons_of_neg (by simp [hbt])] at hnodup
          obtain ⟨iFrame, iOwn, iErr, iCnt⟩ := ih (import_exercises_row mgMap st n r)
            (n + 1)
            (fun x hx hxr => by
              rw [hemapRow]
              exact hemap x (List.mem_cons_of_mem r hx) hxr)
            (fun x hx hxr => by
              rw [hstep]
              exact hstore x (List.mem_cons_of_mem r hx) hxr)
            hnodup
            (by rw [hstep]; exact hnd)
            (by rw [hstep]; exact hlt)
          refine ⟨?_, ?_, ?_, ?_⟩
          · intro κ hκ
            rw [iFrame κ (fun x hx hxr => hκ x (List.mem_cons_of_mem r hx) hxr),
              hstep]
          · intro x hx hxr
            rcases List.mem_cons.mp hx with hEq | hxrest
            · rw [hEq] at hxr
              rw [hxr] at hbt
              cases hbt
            · exact iOwn x hxrest hxr
          · rw [iErr, hstep, exRunErrs_cons, herr]
            try dsimp only
            rw [List.append_assoc]
          · rw [iCnt, hstep]
            simp only [List.countP_cons]
            rw [exRowSettled_rejected mgMap _ r hbt]
            simp only [Bool.false_eq_true, if_false]
            try dsimp only
            omega
        · rw [hcf] at hbt
          cases hbt

theorem import_equipment_idempotent (store : List Equipment) (rows : List CsvRow)
    (hkeys : ((rows.filter eqNonblank).map rowKeyE).Nodup) :
    (import_equipment (import_equipment store rows).store rows).created = 0 ∧
    (import_equipment (import_equipment store rows).store rows).updated = 0 ∧
    (import_equipment (import_equipment store rows).store rows).store =
      (import_equipment store rows).store ∧
    (import_equipment (import_equipment store rows).store rows).errors =
      (import_equipment store rows).errors ∧
    (import_equipment (import_equipment store rows).store rows).skipped =
      (import_equipment store rows).created +
        (import_equipment store rows).updated +
        (import_equipment store rows).skipped := by
  obtain ⟨rFrame, rOwn, rErr, rCnt⟩ :=
    import_equipment_rows_run1 store rows (initEqImportState store) 2
      (fun r hr hnb => dget_buildEquipmentMap store (rowKeyE r))
      (fun r hr hnb => rfl) hkeys
  have hmap2 : ∀ r ∈ rows, eqNonblank r = true →
      dget (initEqImportState (import_equipment store rows).store).emap
          (rowKeyE r) =
        eqExpected r ((lastByKey (fun e => plower e.name) (rowKeyE r) store).map
          Equipment.view) := by
    intro r hr hnb
    exact (dget_buildEquipmentMap (import_equipment store rows).store
      (rowKeyE r)).trans (rOwn r hr hnb)
  have hrun2 := import_equipment_rows_settled rows
    (initEqImportState (import_equipment store rows).store) 2
    (fun r hr hnb => by
      rw [hmap2 r hr hnb]
      exact EqSettledOld_expected r _)
  have hrowEq : ∀ r ∈ rows, ∀ m,
      eqRowErrs (dget (initEqImportState (import_equipment store rows).store).emap
        (rowKeyE r)) m r =
      eqRowErrs ((lastByKey (fun e => plower e.name) (rowKeyE r) store).map
        Equipment.view) m r := by
    intro r hr m
    by_cases hnb : eqNonblank r = true
    · rw [hmap2 r hr hnb]
      exact (eqRow_expected r _ m hnb).1
    · have hbl : pstrip (r.name.getD (String.mk [])) = String.mk [] := by
        unfold eqNonblank at hnb
        exact not_not.mp (of_decide_eq_false (Bool.eq_false_iff.mpr hnb))
      rw [eqRowErrs_blank _ _ _ hbl, eqRowErrs_blank _ _ _ hbl]
  have hsetEq : ∀ r ∈ rows,
      eqRowSettled (dget (initEqImportState
        (import_equipment store rows).store).emap (rowKeyE r)) r =
      eqRowSettled ((lastByKey (fun e => plower e.name) (rowKeyE r) store).map
        Equipment.view) r := by
    intro r hr
    by_cases hnb : eqNonblank r = true
    · rw [hmap2 r hr hnb]
      exact (eqRow_expected r _ 0 hnb).2
    · have hbl : pstrip (r.name.getD (String.mk [])) = String.mk [] := by
        unfold eqNonblank at hnb
        exact not_not.mp (of_decide_eq_false (Bool.eq_false_iff.mpr hnb))
      rw [eqRowSettled_blank _ _ hbl, eqRowSettled_blank _ _ hbl]
  have h2eq : import_equipment (import_equipment store rows).store rows =
      { initEqImportState (import_equipment store rows).store with
          skipped := (initEqImportState (import_equipment store rows).store).skipped +
            rows.countP (fun r => eqRowSettled
              (dget (initEqImportState (import_equipment store rows).store).emap
                (rowKeyE r)) r),
          errors := (initEqImportState (import_equipment store rows).store).errors ++
            eqRunErrs (fun r => dget (initEqImportState
              (import_equipment store rows).store).emap (rowKeyE r)) 2 rows } :=
    hrun2
  rw [h2eq]
  refine ⟨rfl, rfl, rfl, ?_, ?_⟩
  · have herr1 : (import_equipment store rows).errors =
        eqRunErrs (fun r => (lastByKey (fun e => plower e.name) (rowKeyE r)
          store).map Equipment.view) 2 rows := rErr
    dsimp only
    rw [herr1]
    exact eqRunErrs_congr _ _ rows 2 hrowEq
  · have hcnt1 : (import_equipment store rows).created +
        (import_equipment store rows).updated +
        (import_equipment store rows).skipped =
      0 + 0 + 0 + rows.countP (fun r => eqRowSettled
        ((lastByKey (fun e => plower e.name) (rowKeyE r) store).map
          Equipment.view) r) := rCnt
    rw [List.countP_congr (fun a ha => by rw [hsetEq a ha])]
    simp only [initEqImportState]
    try dsimp only
    omega

theorem import_exercises_idempotent (store : List Exercise)
    (mgs : List MuscleGroup) (rows : List CsvRow)
    (hids : (store.map (fun e => e.id)).Nodup)
    (hkeys : ((rows.filter (fun r => !(exRowRejected r))).map rowKeyE).Nodup) :
    (import_exercises (import_exercises store mgs rows).store mgs rows).created =
      0 ∧
    (import_exercises (import_exercises store mgs rows).store mgs rows).updated =
      0 ∧
    (import_exercises (import_exercises store mgs rows).store mgs rows).store =
      (import_exercises store mgs rows).store ∧
    (import_exercises (import_exercises store mgs rows).store mgs rows).errors =
      (import_exercises store mgs rows).errors ∧
    (import_exercises (import_exercises store mgs rows).store mgs rows).skipped =
      (import_exercises store mgs rows).created +
        (import_exercises store mgs rows).updated +
        (import_exercises store mgs rows).skipped := by
  obtain ⟨rFrame, rOwn, rErr, rCnt⟩ :=
    import_exercises_rows_run1 (buildMgMapImport mgs) store rows
      (initExImportState store) 2
      (fun r hr hc => dget_buildExerciseMap store (rowKeyE r))
      (fun r hr hc => rfl) hkeys hids
      (fun e he => id_lt_freshExerciseId store e he)
  have hmap2 : ∀ r ∈ rows, exRowRejected r = false →
      dget (initExImportState (import_exercises store mgs rows).store).emap
          (rowKeyE r) =
        lastByKey (fun e => plower e.name) (rowKeyE r)
          (import_exercises store mgs rows).store := by
    intro r hr hc
    exact dget_buildExerciseMap (import_exercises store mgs rows).store (rowKeyE r)
  have hrun2 := import_exercises_rows_settled (buildMgMapImport mgs) rows
    (initExImportState (import_exercises store mgs rows).store) 2
    (fun r hr hc => by
      rw [hmap2 r hr hc]
      exact (rOwn r hr hc).1)
  have h2eq : import_exercises (import_exercises store mgs rows).store mgs rows =
      { initExImportState (import_exercises store mgs rows).store with
          skipped := (initExImportState
              (import_exercises store mgs rows).store).skipped +
            rows.countP (fun r => exRowSettled (buildMgMapImport mgs)
              (dget (initExImportState
                (import_exercises store mgs rows).store).emap (rowKeyE r)) r),
          errors := (initExImportState
              (import_exercises store mgs rows).store).errors ++
            exRunErrs (buildMgMapImport mgs)
              (fun r => dget (initExImportState
                (import_exercises store mgs rows).store).emap (rowKeyE r))
              2 rows } :=
    hrun2
  have hrowEq : ∀ r ∈ rows, ∀ m,
      exRowErrs (buildMgMapImport mgs)
        (dget (initExImportState (import_exercises store mgs rows).store).emap
          (rowKeyE r)) m r =
      exRowErrs (buildMgMapImport mgs)
        (lastByKey (fun e => plower e.name) (rowKeyE r) store) m r := by
    intro r hr m
    by_cases hc : exRowRejected r = false
    · rw [hmap2 r hr hc]
      exact (rOwn r hr hc).2.1 m
    · have hct : exRowRejected r = true := by
        cases hv : exRowRejected r with
        | true => rfl
        | false => exact absurd hv hc
      exact exRowErrs_rejected (buildMgMapImport mgs) _ _ m r hct
  have hsetEq : ∀ r ∈ rows,
      exRowSettled (buildMgMapImport mgs)
        (dget (initExImportState (import_exercises store mgs rows).store).emap
          (rowKeyE r)) r =
      exRowSettled (buildMgMapImport mgs)
        (lastByKey (fun e => plower e.name) (rowKeyE r) store) r := by
    intro r hr
    by_cases hc : exRowRejected r = false
    · rw [hmap2 r hr hc]
      exact (rOwn r hr hc).2.2
    · have hct : exRowRejected r = true := by
        cases hv : exRowRejected r with
        | true => rfl
        | false => exact absurd hv hc
      rw [exRowSettled_rejected (buildMgMapImport mgs) _ r hct,
        exRowSettled_rejected (buildMgMapImport mgs) _ r hct]
  rw [h2eq]
  refine ⟨rfl, rfl, rfl, ?_, ?_⟩
  · have herr1 : (import_exercises store mgs rows).errors =
        exRunErrs (buildMgMapImport mgs)
          (fun r => lastByKey (fun e => plower e.name) (rowKeyE r) store)
          2 rows := rErr
    dsimp only
    rw [herr1]
    exact exRunErrs_congr (buildMgMapImport mgs) _ _ rows 2 hrowEq
  · have hcnt1 : (import_exercises store mgs rows).created +
        (import_exercises store mgs rows).updated +
        (import_exercises store mgs rows).skipped =
      0 + 0 + 0 + rows.countP (fun r => exRowSettled (buildMgMapImport mgs)
        (lastByKey (fun e => plower e.name) (rowKeyE r) store) r) := rCnt
    dsimp only
    rw [List.countP_congr (fun a ha => by rw [hsetEq a ha])]
    simp only [initExImportState]
    try dsimp only
    omega

/-- C1 amended: the CSV imports are idempotent on batches whose rows address
pairwise-distinct identities.  For the equipment import, if the non-blank row
names are pairwise distinct after stripping and case folding, then a second
run with the identical input against the store left by the first run creates
nothing, updates nothing, leaves the store unchanged, re-reports exactly the
first run's error list, and skips exactly the rows the first run settled
(created, updated or skipped).  The same holds for the exercise import,
additionally assuming the store's primary keys are unique (the database
invariant).  Without the distinct-keys proviso idempotence fails, see the
counterexample: a batch naming the same equipment twice with different
descriptions updates on every run, because a row matched through the
in-memory map is diffed against a stale snapshot. -/
theorem C1_amended_import_idempotence :
    (∀ (store : List Equipment) (rows : List CsvRow),
      ((rows.filter eqNonblank).map rowKeyE).Nodup →
      (import_equipment (import_equipment store rows).store rows).created = 0 ∧
      (import_equipment (import_equipment store rows).store rows).updated = 0 ∧
      (import_equipment (import_equipment store rows).store rows).store =
        (import_equipment store rows).store ∧
      (import_equipment (import_equipment store rows).store rows).errors =
        (import_equipment store rows).errors ∧
      (import_equipment (import_equipment store rows).store rows).skipped =
        (import_equipment store rows).created +
          (import_equipment store rows).updated +
          (import_equipment store rows).skipped) ∧
    (∀ (store : List Exercise) (mgs : List MuscleGroup) (rows : List CsvRow),
      (store.map (fun e => e.id)).Nodup →
      ((rows.filter (fun r => !(exRowRejected r))).map rowKeyE).Nodup →
      (import_exercises (import_exercises store mgs rows).store mgs
          rows).created = 0 ∧
      (import_exercises (import_exercises store mgs rows).store mgs
          rows).updated = 0 ∧
      (import_exercises (import_exercises store mgs rows).store mgs rows).store =
        (import_exercises store mgs rows).store ∧
      (import_exercises (import_exercises store mgs rows).store mgs
          rows).errors = (import_exercises store mgs rows).errors ∧
      (import_exercises (import_exercises store mgs rows).store mgs
          rows).skipped =
        (import_exercises store mgs rows).created +
          (import_exercises store mgs rows).updated +
          (import_exercises store mgs rows).skipped) :=
  ⟨fun store rows h => import_equipment_idempotent store rows h,
   fun store mgs rows h1 h2 => import_exercises_idempotent store mgs rows h1 h2⟩

/-- Witness for C1 amended: a one-row equipment batch (Band) against the empty
store and a one-row exercise batch (Foo, primary Chest) against the empty
store both satisfy the distinct-keys hypotheses, and the second run of each is
an all-skip run. -/
theorem C1_amended_import_idempotence_witness :
    (([c2Row1].filter eqNonblank).map rowKeyE).Nodup ∧
    (([] : List Exercise).map (fun e => e.id)).Nodup ∧
    (([rowFooUpper].filter (fun r => !(exRowRejected r))).map rowKeyE).Nodup ∧
    (import_equipment (import_equipment [] [c2Row1]).store [c2Row1]).created =
      0 ∧
    (import_equipment (import_equipment [] [c2Row1]).store [c2Row1]).updated =
      0 ∧
    (import_equipment (import_equipment [] [c2Row1]).store [c2Row1]).skipped =
      (import_equipment [] [c2Row1]).created +
        (import_equipment [] [c2Row1]).updated +
        (import_equipment [] [c2Row1]).skipped ∧
    (import_exercises (import_exercises [] [mgChest] [rowFooUpper]).store
        [mgChest] [rowFooUpper]).created = 0 ∧
    (import_exercises (import_exercises [] [mgChest] [rowFooUpper]).store
        [mgChest] [rowFooUpper]).updated = 0 :=
  ⟨by decide, by decide, by decide,
   (C1_amended_import_idempotence.1 [] [c2Row1] (by decide)).1,
   (C1_amended_import_idempotence.1 [] [c2Row1] (by decide)).2.1,
   (C1_amended_import_idempotence.1 [] [c2Row1] (by decide)).2.2.2.2,
   (C1_amended_import_idempotence.2 [] [mgChest] [rowFooUpper] (by decide)
     (by decide)).1,
   (C1_amended_import_idempotence.2 [] [mgChest] [rowFooUpper] (by decide)
     (by decide)).2.1⟩

end LiftTracker
